import Mathlib

/-!
# Marketplace server: price and stock parsing, cart, roles, ownership, registration, login

A shallow embedding of the request handlers of `cmd/server/main.go` and of the
records of `internal/models`.

Conventions of the embedding:

* a Go `string` is a list of runes (`GoString`);
* a Go `int` is a 64-bit two's complement integer: values are `Int`s and every
  arithmetic result is passed through `wrap64`;
* the standard-library calls the handlers make (`strings.TrimSpace`,
  `strings.ReplaceAll`, `strings.Contains`, `fmt.Sscanf`, `strconv.ParseInt`)
  are embedded from the Go standard library, restricted to the format strings
  and bases the handlers use;
* the database is a pair of row lists kept in primary-key order, the session is
  a record of the three keys the handlers read and write, and `Save` is the
  cookie store's write with its error discarded.
-/

namespace Marketplace

/-! ## Go strings and machine integers -/

/-- A Go string, as its sequence of runes. -/
abbrev GoString := List Char

/-- Go `int` on a 64-bit platform: reduction of an integer to the two's
complement range `[-2^63, 2^63)`. -/
def wrap64 (x : Int) : Int :=
  (x + 9223372036854775808) % 18446744073709551616 - 9223372036854775808

/-- The table `space` of `fmt/scan.go` (also the white space of
`unicode.IsSpace`, which `strings.TrimSpace` uses). -/
def isSpace (r : Char) : Bool :=
  let n := r.toNat
  (decide (0x0009 ≤ n) && decide (n ≤ 0x000d)) || n == 0x0020 || n == 0x0085 ||
  n == 0x00a0 || n == 0x1680 || (decide (0x2000 ≤ n) && decide (n ≤ 0x200a)) ||
  (decide (0x2028 ≤ n) && decide (n ≤ 0x2029)) || n == 0x202f || n == 0x205f ||
  n == 0x3000

/-- Drop the leading white space of a string. -/
def trimLeft : GoString → GoString
  | [] => []
  | c :: cs => if isSpace c then trimLeft cs else c :: cs

/-- The function `strings.TrimSpace`: leading and trailing white space removed. -/
def TrimSpace (s : GoString) : GoString :=
  (trimLeft (trimLeft s).reverse).reverse

/-- The call `strings.ReplaceAll(s, ",", ".")`. -/
def ReplaceAllCommaDot (s : GoString) : GoString :=
  s.map fun c => if c = ',' then '.' else c

/-- The call `strings.Contains(s, string(r))` for a one-rune needle. -/
def Contains (s : GoString) (r : Char) : Bool :=
  s.any fun c => c == r

/-! ## `strconv.ParseInt(tok, 10, 64)` -/

/-- An ASCII decimal digit, `'0' <= c && c <= '9'`. -/
def isDigit (c : Char) : Bool :=
  decide (48 ≤ c.toNat) && decide (c.toNat ≤ 57)

/-- The value `c - '0'` of a digit. -/
def digitVal (c : Char) : Nat := c.toNat - 48

/-- The two ways `strconv` fails. -/
inductive NumError where
  | ErrSyntax
  | ErrRange
  deriving DecidableEq, Repr

/-- The digit loop of `strconv.ParseUint(s, 10, 64)`, started with accumulator
`n`: a byte that is not a digit is a syntax error (an underscore is accepted
only for base 0), `n >= cutoff` and a wrapped `n*10 + d` are range errors. -/
def parseUintLoop : GoString → Nat → Except NumError Nat
  | [], n => .ok n
  | c :: cs, n =>
    if isDigit c then
      if n ≥ 18446744073709551615 / 10 + 1 then .error .ErrRange
      else
        let n10 := n * 10
        let n1 := (n10 + digitVal c) % 18446744073709551616
        if n1 < n10 then .error .ErrRange else parseUintLoop cs n1
    else .error .ErrSyntax

/-- The function `strconv.ParseUint(s, 10, 64)`. -/
def ParseUint (s : GoString) : Except NumError Nat :=
  match s with
  | [] => .error .ErrSyntax
  | _ => parseUintLoop s 0

/-- The function `strconv.ParseInt(s, 10, 64)`: an optional sign, then
`ParseUint`, then the signed range check. -/
def ParseInt (s : GoString) : Except NumError Int :=
  match s with
  | [] => .error .ErrSyntax
  | c :: cs =>
    let neg := c == '-'
    let body := if c == '+' || c == '-' then cs else c :: cs
    match ParseUint body with
    | .error e => .error e
    | .ok un =>
      if !neg && un ≥ 9223372036854775808 then .error .ErrRange
      else if neg && un > 9223372036854775808 then .error .ErrRange
      else .ok (if neg then wrap64 (-(wrap64 (un : Int))) else wrap64 (un : Int))

/-! ## `fmt.Sscanf` for the formats `"%d"` and `"%d.%d"` -/

/-- The method `(*ss).SkipSpace` with `nlIsSpace = false`, as `Sscanf` runs
it: white space is consumed, a newline is the error "unexpected newline"
(`none`). -/
def SkipSpace : GoString → Option GoString
  | [] => some []
  | r :: rest =>
    if r = '\r' ∧ rest.head? = some '\n' then SkipSpace rest
    else if r = '\n' then none
    else if isSpace r then SkipSpace rest
    else some (r :: rest)

/-- The method `(*ss).scanInt('d', 64)`: skip white space, fail at end of
input, accept one sign, accept a non-empty run of `decimalDigits`
(`"0123456789"`; the underscore is a digit separator for the verb `v` only),
and hand the token to `ParseInt`. Returns the value and the unread input, or `none` for each
of the scanner's errors. -/
def scanInt (input : GoString) : Option (Int × GoString) :=
  match SkipSpace input with
  | none => none
  | some [] => none
  | some (c :: rest) =>
    let sgn : GoString := if c == '+' || c == '-' then [c] else []
    let rest1 : GoString := if c == '+' || c == '-' then rest else c :: rest
    let tok := rest1.takeWhile isDigit
    let rest2 := rest1.dropWhile isDigit
    match tok with
    | [] => none
    | _ =>
      match ParseInt (sgn ++ tok) with
      | .error _ => none
      | .ok i => some (i, rest2)

/-- The verb step of `doScanf` for `%d`: `SkipSpace`, then `scanOne`. -/
def scanVerbD (input : GoString) : Option (Int × GoString) :=
  match SkipSpace input with
  | none => none
  | some s => scanInt s

/-- The call `fmt.Sscanf(str, "%d", &x)` with the error discarded: the value of
`x` afterwards, `x0` being its value before. -/
def SscanfD (str : GoString) (x0 : Int) : Int :=
  match scanVerbD str with
  | some (i, _) => i
  | none => x0

/-- The call `fmt.Sscanf(str, "%d.%d", &a, &b)` with the error discarded: the
values of `a` and `b` afterwards. The first operand is stored before the
literal `.` is matched, so a failure after it keeps the first value. -/
def SscanfDDotD (str : GoString) (a0 b0 : Int) : Int × Int :=
  match scanVerbD str with
  | none => (a0, b0)
  | some (a, rest) =>
    match rest with
    | [] => (a, b0)
    | c :: rest1 =>
      if c = '.' then
        match scanVerbD rest1 with
        | some (b, _) => (a, b)
        | none => (a, b0)
      else (a, b0)

/-! ## Price and stock parsing of the product handlers -/

/-- Lines 408-419 of `POST /seller/products`: the price string (already
trimmed and non-empty) to `priceCents`. -/
def createPriceCents (price : GoString) : Int :=
  let price := ReplaceAllCommaDot price
  if Contains price '.' then
    let dc := SscanfDDotD price 0 0
    let dollars := dc.1
    let cents := if dc.2 > 99 then 99 else dc.2
    wrap64 (wrap64 (dollars * 100) + cents)
  else
    let dollars := SscanfD price 0
    wrap64 (dollars * 100)

/-- Lines 519-530 of `POST /seller/products/:id`: the same computation in the
update handler. -/
def updatePriceCents (price : GoString) : Int :=
  let price := ReplaceAllCommaDot price
  if Contains price '.' then
    let dc := SscanfDDotD price 0 0
    let dollars := dc.1
    let cents := if dc.2 > 99 then 99 else dc.2
    wrap64 (wrap64 (dollars * 100) + cents)
  else
    let dollars := SscanfD price 0
    wrap64 (dollars * 100)

/-- Lines 420-423 of `POST /seller/products`: the stock string to `stockInt`. -/
def createStock (stock : GoString) : Int :=
  let stockInt := SscanfD stock 0
  if stockInt < 0 then 0 else stockInt

/-- Lines 531-534 of `POST /seller/products/:id`: the stock string to
`stockInt` in the update handler. -/
def updateStock (stock : GoString) : Int :=
  let stockInt := SscanfD stock 0
  if stockInt < 0 then 0 else stockInt

/-! ## Decimal numerals (the vocabulary of the parsing statements) -/

/-- The number a string of decimal digits denotes. -/
def decimalValue (ds : GoString) : Nat :=
  ds.foldl (fun acc c => 10 * acc + digitVal c) 0

/-- A non-empty string of ASCII decimal digits. -/
def IsDecimal (ds : GoString) : Prop :=
  ds ≠ [] ∧ ∀ c ∈ ds, isDigit c = true

/-- A string whose first rune (if any) cannot continue a `%d` token. -/
def StopsNumber (rest : GoString) : Prop :=
  ∀ y, rest.head? = some y → isDigit y = false

/-! ## Records of `internal/models`, the database and the session -/

/-- The type `models.Role`, a string. -/
abbrev Role := GoString

/-- The constant `models.RoleBuyer`. -/
def RoleBuyer : Role := "buyer".toList

/-- The constant `models.RoleSeller`. -/
def RoleSeller : Role := "seller".toList

/-- The constant `models.RoleAdmin`. -/
def RoleAdmin : Role := "admin".toList

/-- The record `models.User` (table `users`). -/
structure User where
  ID : Nat
  Email : GoString
  Phone : GoString
  Username : GoString
  PasswordHash : GoString
  Role : Role
  deriving DecidableEq, Repr

/-- The zero value of `models.User`, what `var u models.User` holds when a
query finds no row. -/
def User.zero : User := ⟨0, [], [], [], [], []⟩

/-- The record `models.Product` (table `products`) with the fields of the
embedded `models.Base`; times are abstract instants. -/
structure Product where
  ID : Nat
  CreatedAt : Nat
  UpdatedAt : Nat
  SellerID : Nat
  Title : GoString
  Description : GoString
  PriceCents : Int
  Stock : Int
  ImagePath : GoString
  deriving DecidableEq, Repr

/-- The two tables, each with its rows in primary-key order (the order in
which `First` finds them). -/
structure DB where
  users : List User
  products : List Product
  deriving DecidableEq, Repr

/-- The cart `map[string]int` kept under the session key `cartKey`, as its
list of entries. -/
abbrev Cart := List (GoString × Int)

/-- The map read `cart[k]`: the stored quantity, or the zero value. -/
def Cart.get (m : Cart) (k : GoString) : Int :=
  match m.lookup k with
  | some v => v
  | none => 0

/-- The built-in `delete(cart, k)`. -/
def Cart.delete (m : Cart) (k : GoString) : Cart :=
  m.filter fun e => !(e.1 == k)

/-- The map write `cart[k] = v`. -/
def Cart.set (m : Cart) (k : GoString) (v : Int) : Cart :=
  (k, v) :: Cart.delete m k

/-- The session: the values under the keys `user_email`, `user_username` and
`cart`, each absent (`nil`) or holding a value. A handler works on the values
decoded from the cookie of its request; the next request decodes what the last
successful `Save` wrote. -/
structure Session where
  user_email : Option GoString
  user_username : Option GoString
  cart : Option Cart
  deriving DecidableEq, Repr

/-- The read `sess.Get(key).(string)` with the second result discarded: the
empty string when the key is absent. -/
def Session.str (v : Option GoString) : GoString :=
  match v with
  | some s => s
  | none => []

/-- The helper `getCart`: the stored map, or an empty one. -/
def getCart (sess : Session) : Cart :=
  match sess.cart with
  | none => []
  | some m => m

/-- The method `sess.Save()` of the cookie store (`cookie.NewStore`) with its
error discarded: what the next request reads, `stored` being the session in
the cookie of this request and `values` the values after the handler's
`sess.Set` calls. The store encodes the values with gob. Strings are encoded;
the type `map[string]int` is registered with gob nowhere in the program, so
values that hold a cart make the encoding fail, no cookie is written and the
session stays as stored. -/
def Save (stored values : Session) : Session :=
  match values.cart with
  | some _ => stored
  | none => values

/-- The helper `saveCart`: `sess.Set(cartKey, cart)`, then `_ = sess.Save()`. -/
def saveCart (sess : Session) (cart : Cart) : Session :=
  Save sess { sess with cart := some cart }

/-- What the handlers take from outside the repository. -/
structure Env where
  /-- The case tables of package `unicode`: `unicode.ToLower` on a rune above
  ASCII. -/
  unicodeToLower : Char → Char
  /-- The database reading a text parameter that is compared with the integer
  column `id`: the integer, or `none` when the statement fails. -/
  idOfText : GoString → Option Nat
  /-- The function `models.HashPassword` (bcrypt): the hash, or the error text. -/
  HashPassword : GoString → Except GoString GoString
  /-- The function `models.CheckPassword hash pw`. -/
  CheckPassword : GoString → GoString → Bool
  /-- The statement `db.Create(&u)` on table `users`: the table with the new
  row, or the error text. -/
  insertUser : List User → User → Except GoString (List User)

/-- The function `unicode.ToLower`: ASCII letters by arithmetic, other runes by
the case tables. -/
def toLowerRune (env : Env) (r : Char) : Char :=
  if r.toNat ≤ 127 then
    if 65 ≤ r.toNat ∧ r.toNat ≤ 90 then Char.ofNat (r.toNat + 32) else r
  else env.unicodeToLower r

/-- The function `strings.ToLower`. -/
def ToLower (env : Env) (s : GoString) : GoString :=
  s.map (toLowerRune env)

/-- The local type `Row` of `GET /cart`. -/
structure Row where
  Product : Product
  Qty : Int
  SubtotalCents : Int
  deriving DecidableEq, Repr

/-- What a handler answers: `c.Redirect`, `c.String`, `c.HTML` (of its data
only the entry "Error" is kept), or the page `cart.tmpl` with its data "Rows"
and "TotalCents". -/
inductive Response where
  | redirect (code : Nat) (location : GoString)
  | text (code : Nat) (body : GoString)
  | html (code : Nat) (template : GoString) (error : Option GoString)
  | cartPage (code : Nat) (rows : List Row) (totalCents : Int)
  deriving DecidableEq, Repr

/-- The constant `http.StatusSeeOther`. -/
def StatusSeeOther : Nat := 303
/-- The constant `http.StatusOK`. -/
def StatusOK : Nat := 200
/-- The constant `http.StatusBadRequest`. -/
def StatusBadRequest : Nat := 400
/-- The constant `http.StatusUnauthorized`. -/
def StatusUnauthorized : Nat := 401
/-- The constant `http.StatusForbidden`. -/
def StatusForbidden : Nat := 403
/-- The constant `http.StatusNotFound`. -/
def StatusNotFound : Nat := 404
/-- The constant `http.StatusInternalServerError`. -/
def StatusInternalServerError : Nat := 500

/-! ## Queries -/

/-- The query `db.Where("email = ?", email).First(&u)`. -/
def firstUserByEmail (db : DB) (email : GoString) : Option User :=
  db.users.find? fun u => u.Email == email

/-- The query `db.Where("username = ?", username).First(&u)`. -/
def firstUserByUsername (db : DB) (username : GoString) : Option User :=
  db.users.find? fun u => u.Username == username

/-- The lookup every gated handler repeats: by email when the session's email
is non-empty, by username otherwise. -/
def resolveUser (db : DB) (email username : GoString) : Option User :=
  if email ≠ [] then firstUserByEmail db email else firstUserByUsername db username

/-- The query `db.First(&p, "id = ?", id)` with a text `id`: `none` for a
failed statement and for no row. -/
def firstProduct (env : Env) (db : DB) (id : GoString) : Option Product :=
  match env.idOfText id with
  | none => none
  | some n => db.products.find? fun p => p.ID == n

/-- The statement `db.Save(&u)`: the row with `u`'s primary key is replaced. -/
def saveUser (users : List User) (u : User) : List User :=
  users.map fun x => if x.ID == u.ID then u else x

/-- The statement `db.Save(&item)`: the row with `item`'s primary key is
replaced, `UpdatedAt` set to the time of the write. -/
def saveProduct (products : List Product) (item : Product) (now : Nat) : List Product :=
  products.map fun x => if x.ID == item.ID then { item with UpdatedAt := now } else x

/-- The statement `db.Where("id = ? AND seller_id = ?", id, seller).Delete(..)`:
`none` when the statement fails, else the remaining rows and `RowsAffected`. -/
def deleteProduct (env : Env) (db : DB) (id : GoString) (seller : Nat) :
    Option (List Product × Nat) :=
  match env.idOfText id with
  | none => none
  | some n =>
    some (db.products.filter (fun p => !(p.ID == n && p.SellerID == seller)),
      db.products.countP (fun p => p.ID == n && p.SellerID == seller))

/-! ## Middlewares -/

/-- The outcome of a middleware: the chain is aborted with a response, or the
next handler runs (with the value stored under `currentUser`, if any). -/
inductive Gate where
  | abort (r : Response)
  | next (currentUser : Option User)
  deriving DecidableEq, Repr

/-- The middleware `mustLogin`. -/
def mustLogin (sess : Session) : Gate :=
  if sess.user_email = none ∧ sess.user_username = none then
    .abort (.redirect StatusSeeOther "/login".toList)
  else .next none

/-- The middleware `mustSeller`. -/
def mustSeller (env : Env) (db : DB) (sess : Session) : Gate :=
  let email := Session.str sess.user_email
  let username := Session.str sess.user_username
  if email = [] ∧ username = [] then .abort (.redirect StatusSeeOther "/login".toList)
  else
    match resolveUser db email username with
    | none => .abort (.redirect StatusSeeOther "/login".toList)
    | some u =>
      let role := ToLower env u.Role
      if role ≠ "seller".toList ∧ role ≠ "admin".toList then
        .abort (.redirect StatusSeeOther "/seller/upgrade".toList)
      else .next (some u)

/-! ## Handlers -/

/-- The handler of `GET /seller/upgrade` behind `mustLogin`: the response and
the database afterwards. -/
def sellerUpgrade (env : Env) (db : DB) (sess : Session) : Response × DB :=
  match mustLogin sess with
  | .abort r => (r, db)
  | .next _ =>
    let email := Session.str sess.user_email
    let username := Session.str sess.user_username
    match resolveUser db email username with
    | none => (.text StatusInternalServerError "record not found".toList, db)
    | some u =>
      if ToLower env u.Role = "seller".toList then
        (.redirect StatusSeeOther "/seller/products".toList, db)
      else
        let u := { u with Role := RoleSeller }
        (.redirect StatusSeeOther "/seller/products".toList,
          { db with users := saveUser db.users u })

/-- The user a seller handler looks up for its ownership check: the error of
`First` is discarded, so a missing row leaves the zero value. -/
def ownerOf (db : DB) (sess : Session) : User :=
  match resolveUser db (Session.str sess.user_email) (Session.str sess.user_username) with
  | some u => u
  | none => User.zero

/-- The handler of `GET /seller/products/:id/edit` behind `mustSeller`. -/
def sellerProductEdit (env : Env) (db : DB) (sess : Session) (id : GoString) :
    Response × DB :=
  match mustSeller env db sess with
  | .abort r => (r, db)
  | .next _ =>
    match firstProduct env db id with
    | none => (.text StatusNotFound "Not found".toList, db)
    | some item =>
      let u := ownerOf db sess
      if item.SellerID ≠ u.ID then (.text StatusForbidden "Forbidden".toList, db)
      else (.html StatusOK "seller_form.tmpl".toList none, db)

/-- The handler of `POST /seller/products/:id` behind `mustSeller`. The
arguments are the path parameter, the four form fields, the outcome of
`saveUploadedImage(c, "image")` and the time of the write. -/
def sellerProductUpdate (env : Env) (db : DB) (sess : Session)
    (id titleForm descForm priceForm stockForm : GoString)
    (image : Except GoString GoString) (now : Nat) : Response × DB :=
  match mustSeller env db sess with
  | .abort r => (r, db)
  | .next _ =>
    match firstProduct env db id with
    | none => (.text StatusNotFound "Not found".toList, db)
    | some item =>
      let u := ownerOf db sess
      if item.SellerID ≠ u.ID then (.text StatusForbidden "Forbidden".toList, db)
      else
        let title := TrimSpace titleForm
        let desc := TrimSpace descForm
        let price := TrimSpace priceForm
        let stock := TrimSpace stockForm
        if title = [] ∨ price = [] ∨ stock = [] then
          (.html StatusBadRequest "seller_form.tmpl".toList
            (some "Fill title, price, stock".toList), db)
        else
          let priceCents := updatePriceCents price
          let stockInt := updateStock stock
          match image with
          | .error imgErr => (.html StatusBadRequest "seller_form.tmpl".toList (some imgErr), db)
          | .ok imgPath =>
            let item := if imgPath ≠ [] then { item with ImagePath := imgPath } else item
            let item := { item with
              Title := title, Description := desc, PriceCents := priceCents, Stock := stockInt }
            (.redirect StatusSeeOther "/seller/products".toList,
              { db with products := saveProduct db.products item now })

/-- The handler of `POST /seller/products/:id/delete` behind `mustSeller`. The
text of a failed statement is the argument `dbError`. -/
def sellerProductDelete (env : Env) (db : DB) (sess : Session) (id : GoString)
    (dbError : GoString) : Response × DB :=
  match mustSeller env db sess with
  | .abort r => (r, db)
  | .next _ =>
    let u := ownerOf db sess
    match deleteProduct env db id u.ID with
    | none => (.text StatusInternalServerError dbError, db)
    | some (remaining, rowsAffected) =>
      if rowsAffected = 0 then
        (.text StatusForbidden "Not your product or not found".toList, db)
      else (.redirect StatusSeeOther "/seller/products".toList, { db with products := remaining })

/-- The map writes of `POST /cart/add`, lines 618-621: `cart[id] += qty`, then
`cart[id] = 1` if the sum is below 1. -/
def cartAddWrites (cart : Cart) (id : GoString) (qty : Int) : Cart :=
  let cart := Cart.set cart id (wrap64 (Cart.get cart id + qty))
  if Cart.get cart id < 1 then Cart.set cart id 1 else cart

/-- The map writes of `POST /cart/update`, lines 638-642. -/
def cartUpdateWrites (cart : Cart) (id : GoString) (qty : Int) : Cart :=
  if qty ≤ 0 then Cart.delete cart id else Cart.set cart id qty

/-- The handler of `POST /cart/add`: the response and the session afterwards. -/
def cartAdd (env : Env) (db : DB) (sess : Session) (productIdForm qtyForm : GoString) :
    Response × Session :=
  let id := TrimSpace productIdForm
  let qtyStr := TrimSpace qtyForm
  if id = [] then (.text StatusBadRequest "no product".toList, sess)
  else
    let qtyStr := if qtyStr = [] then "1".toList else qtyStr
    let qty := SscanfD qtyStr 0
    let qty := if qty ≤ 0 then 1 else qty
    match firstProduct env db id with
    | none => (.text StatusNotFound "product not found".toList, sess)
    | some p =>
      if p.Stock ≤ 0 then (.text StatusBadRequest "out of stock".toList, sess)
      else
        let cart := getCart sess
        let cart := cartAddWrites cart id qty
        (.redirect StatusSeeOther "/cart".toList, saveCart sess cart)

/-- The handler of `POST /cart/update`. -/
def cartUpdate (sess : Session) (productIdForm qtyForm : GoString) : Response × Session :=
  let id := TrimSpace productIdForm
  let qtyStr := TrimSpace qtyForm
  if id = [] then (.redirect StatusSeeOther "/cart".toList, sess)
  else
    let qty := SscanfD qtyStr 0
    let cart := getCart sess
    let cart := cartUpdateWrites cart id qty
    (.redirect StatusSeeOther "/cart".toList, saveCart sess cart)

/-- The handler of `POST /cart/remove`. -/
def cartRemove (sess : Session) (productIdForm : GoString) : Response × Session :=
  let id := TrimSpace productIdForm
  if id = [] then (.redirect StatusSeeOther "/cart".toList, sess)
  else
    let cart := getCart sess
    let cart := Cart.delete cart id
    (.redirect StatusSeeOther "/cart".toList, saveCart sess cart)

/-- One pass of the loop body of `GET /cart` for the entry `(id, q)`. -/
def cartViewStep (env : Env) (db : DB) (acc : List Row × Int) (e : GoString × Int) :
    List Row × Int :=
  match firstProduct env db e.1 with
  | some p =>
    let sub := wrap64 (p.PriceCents * e.2)
    (acc.1 ++ [{ Product := p, Qty := e.2, SubtotalCents := sub }], wrap64 (acc.2 + sub))
  | none => acc

/-- The loop of `GET /cart` over the entries in the order `entries` in which
the map hands them out (Go leaves that order unspecified): the rows and the
total. -/
def cartViewLoop (env : Env) (db : DB) (entries : List (GoString × Int)) : List Row × Int :=
  entries.foldl (cartViewStep env db) ([], 0)

/-- The handler of `GET /cart`, visiting the cart in the order of its entry
list: the response and the session afterwards. -/
def cartView (env : Env) (db : DB) (sess : Session) : Response × Session :=
  let cart := getCart sess
  let rt := cartViewLoop env db cart
  (.cartPage StatusOK rt.1 rt.2, sess)

/-- The number of rows of `users` a `Count` statement finds. -/
def countUsers (db : DB) (p : User → Bool) : Nat :=
  db.users.countP p

/-- The handler of `POST /register`: the response, the database and the
session afterwards. -/
def register (env : Env) (db : DB) (sess : Session) (contactForm usernameForm pw : GoString) :
    Response × DB × Session :=
  let contact := TrimSpace contactForm
  let username := TrimSpace usernameForm
  if contact = [] ∨ username = [] ∨ pw = [] then
    (.html StatusBadRequest "register.tmpl".toList (some "Fill all fields".toList), db, sess)
  else
    let email : GoString := if Contains contact '@' then contact else []
    let phone : GoString := if Contains contact '@' then [] else contact
    if countUsers db (fun u => u.Username == username) > 0 then
      (.html StatusBadRequest "register.tmpl".toList (some "Username taken".toList), db, sess)
    else if email ≠ [] ∧ countUsers db (fun u => u.Email == email) > 0 then
      (.html StatusBadRequest "register.tmpl".toList
        (some "Email already registered".toList), db, sess)
    else if phone ≠ [] ∧ countUsers db (fun u => u.Phone == phone) > 0 then
      (.html StatusBadRequest "register.tmpl".toList
        (some "Phone already registered".toList), db, sess)
    else
      match env.HashPassword pw with
      | .error err => (.html StatusInternalServerError "register.tmpl".toList (some err), db, sess)
      | .ok hash =>
        let u : User :=
          { ID := 0, Username := username, Email := email, Phone := phone,
            PasswordHash := hash, Role := RoleBuyer }
        match env.insertUser db.users u with
        | .error err =>
          (.html StatusInternalServerError "register.tmpl".toList (some err), db, sess)
        | .ok users =>
          (.redirect StatusSeeOther "/".toList, { db with users := users },
            Save sess { sess with user_email := some u.Email, user_username := some u.Username })

/-! ## Sample data for the worked examples -/

/-- An environment for the examples: no case pairs above ASCII, ids written
as unsigned decimals, a hash that tags the password, inserts that append. -/
def sampleEnv : Env where
  unicodeToLower := fun r => r
  idOfText := fun s =>
    match ParseUint s with
    | .ok n => some n
    | .error _ => none
  HashPassword := fun pw => .ok ('#' :: pw)
  CheckPassword := fun hash pw => hash == '#' :: pw
  insertUser := fun users u => .ok (users ++ [{ u with ID := users.length + 1 }])

/-- A buyer, a seller and an admin. -/
def sampleUsers : List User :=
  [ ⟨1, "bob@x.io".toList, [], "bob".toList, "#pw".toList, RoleBuyer⟩,
    ⟨2, "sue@x.io".toList, [], "sue".toList, "#pw".toList, RoleSeller⟩,
    ⟨3, [], "+100".toList, "root".toList, "#pw".toList, RoleAdmin⟩ ]

/-- Product 7 (of seller 2, in stock) and product 8 (of seller 3, sold out). -/
def sampleProducts : List Product :=
  [ ⟨7, 0, 0, 2, "lamp".toList, [], 1250, 4, []⟩,
    ⟨8, 0, 0, 3, "desk".toList, [], 9900, 0, []⟩ ]

/-- The sample database. -/
def sampleDB : DB := ⟨sampleUsers, sampleProducts⟩

/-- A session of a visitor who is not logged in, holding the cart `cart`. -/
def guestSession (cart : Option Cart) : Session := ⟨none, none, cart⟩

/-- A session with the claims that registration and login store for a user. -/
def sessionOf (u : User) : Session := ⟨some u.Email, some u.Username, none⟩

/-! ## Login -/

/-- The query `db.Where("phone = ?", phone).First(&u)`. -/
def firstUserByPhone (db : DB) (phone : GoString) : Option User :=
  db.users.find? fun u => u.Phone == phone

/-- The call `strings.HasPrefix(s, string(r))` for a one-rune prefix. -/
def HasPrefix (s : GoString) (r : Char) : Bool :=
  match s with
  | [] => false
  | c :: _ => c == r

/-- The loop of `strings.IndexFunc` from byte offset `i`. -/
def indexFuncFrom (f : Char → Bool) : GoString → Nat → Int
  | [], _ => -1
  | c :: cs, i => if f c then (i : Int) else indexFuncFrom f cs (i + c.utf8Size)

/-- The function `strings.IndexFunc`: the byte index of the first rune that
satisfies `f`, or -1. -/
def IndexFunc (s : GoString) (f : Char → Bool) : Int :=
  indexFuncFrom f s 0

/-- The column the login handler puts in its `Where` clause. -/
inductive LoginLookup where
  | email
  | phone
  | username
  deriving DecidableEq, Repr

/-- The branch of `POST /login` that builds the query, lines 286-292:
`Contains(ident, "@")`, else `HasPrefix(ident, "+")` or `IndexFunc` with
`r < '0' || r > '9'` finding nothing, else the username. -/
def loginLookup (ident : GoString) : LoginLookup :=
  if Contains ident '@' then .email
  else if HasPrefix ident '+' ||
      IndexFunc ident (fun r => decide (r.toNat < 48) || decide (r.toNat > 57)) == -1 then
    .phone
  else .username

/-- The statement `q.First(&u)` of the login handler for the chosen column. -/
def loginFirst (db : DB) (ident : GoString) : Option User :=
  match loginLookup ident with
  | .email => firstUserByEmail db ident
  | .phone => firstUserByPhone db ident
  | .username => firstUserByUsername db ident

/-- The handler of `POST /login`: the response and the session afterwards. -/
def login (env : Env) (db : DB) (sess : Session) (usernameForm pw : GoString) :
    Response × Session :=
  let ident := TrimSpace usernameForm
  if ident = [] ∨ pw = [] then
    (.html StatusBadRequest "login.tmpl".toList (some "Fill all fields".toList), sess)
  else
    match loginFirst db ident with
    | none =>
      (.html StatusUnauthorized "login.tmpl".toList (some "User not found".toList), sess)
    | some u =>
      if !env.CheckPassword u.PasswordHash pw then
        (.html StatusUnauthorized "login.tmpl".toList (some "Wrong password".toList), sess)
      else
        (.redirect StatusSeeOther "/".toList,
          Save sess { sess with user_email := some u.Email, user_username := some u.Username })

/-! ## Sequences of cart requests -/

/-- A request to one of the three cart routes that write, with its form
fields as sent. -/
inductive CartOp where
  | add (productId qty : GoString)
  | update (productId qty : GoString)
  | remove (productId : GoString)
  deriving DecidableEq, Repr

/-- The session after one cart request served against the database `db`. -/
def applyCartOp (env : Env) (sess : Session) (req : DB × CartOp) : Session :=
  match req.2 with
  | .add productId qty => (cartAdd env req.1 sess productId qty).2
  | .update productId qty => (cartUpdate sess productId qty).2
  | .remove productId => (cartRemove sess productId).2

/-- The session after a sequence of cart requests, each served against the
database as it is at that time. -/
def runCartOps (env : Env) (sess : Session) (reqs : List (DB × CartOp)) : Session :=
  reqs.foldl (applyCartOp env) sess

/-! ## Rows and roles (the vocabulary of the gate and login statements) -/

/-- The first row of a table, in primary-key order, that has the property `p`:
the row `First` returns for the condition `p`. -/
def IsFirstRowWith {α : Type} (rows : List α) (p : α → Prop) (a : α) : Prop :=
  ∃ pre post, rows = pre ++ a :: post ∧ p a ∧ ∀ b ∈ pre, ¬ p b

/-- The rune `d` is the lower case of the rune `c`: an ASCII capital letter
gives its small letter, any other ASCII rune itself, and a rune above ASCII
what the case tables of the environment give. -/
def IsLowerCaseOf (env : Env) (c d : Char) : Prop :=
  (65 ≤ c.toNat ∧ c.toNat ≤ 90 ∧ d.toNat = c.toNat + 32) ∨
  (c.toNat ≤ 127 ∧ ¬ (65 ≤ c.toNat ∧ c.toNat ≤ 90) ∧ d = c) ∨
  (127 < c.toNat ∧ d = env.unicodeToLower c)

/-- The string `s` spells the word `w` when case is ignored: rune by rune, `w`
is the lower case of `s`. -/
def SpellsIgnoringCase (env : Env) (s w : GoString) : Prop :=
  List.Forall₂ (IsLowerCaseOf env) s w

/-! ## Sample data with mixed-case roles -/

/-- Four users with pairwise different emails, phones and usernames: a
seller and an admin whose roles are stored in capitals, two buyers, the last
with a username made of digits. -/
def gateUsers : List User :=
  [ ⟨1, "ann@x.io".toList, "+111".toList, "ann".toList, "#pw".toList, "SELLER".toList⟩,
    ⟨2, "ben@x.io".toList, "222".toList, "ben".toList, "#pw".toList, "Admin".toList⟩,
    ⟨3, "cy@x.io".toList, "+333".toList, "cy".toList, "#pw".toList, "buyer".toList⟩,
    ⟨4, "dee@x.io".toList, "+444".toList, "12345".toList, "#pw".toList, "Buyer".toList⟩ ]

/-- The database of the four users. -/
def gateDB : DB := ⟨gateUsers, sampleProducts⟩

/-- The identity claim of a session resolves to the user `u`: `u` is the first
row with the claimed email when that is non-empty, otherwise the first row
with the claimed username when that is non-empty. -/
def ClaimResolvesTo (db : DB) (email username : GoString) (u : User) : Prop :=
  (email ≠ [] ∧ IsFirstRowWith db.users (fun v => v.Email = email) u) ∨
  (email = [] ∧ username ≠ [] ∧ IsFirstRowWith db.users (fun v => v.Username = username) u)

/-! ## Lemmas on the scanner -/

theorem isDigit_bounds {c : Char} (h : isDigit c = true) : 48 ≤ c.toNat ∧ c.toNat ≤ 57 := by
  simpa [isDigit] using h

theorem ne_of_toNat_ne {c d : Char} (h : c.toNat ≠ d.toNat) : c ≠ d :=
  fun e => h (e ▸ rfl)

theorem isDigit_not_space {c : Char} (h : isDigit c = true) : isSpace c = false := by
  have hb := isDigit_bounds h
  simp only [isSpace, Bool.or_eq_false_iff, Bool.and_eq_false_iff, decide_eq_false_iff_not,
    beq_eq_false_iff_ne]
  omega

theorem foldl_digit_ge (cs : GoString) (n : Nat) :
    n ≤ cs.foldl (fun acc c => 10 * acc + digitVal c) n := by
  induction cs generalizing n with
  | nil => simp
  | cons c cs ih =>
    simp only [List.foldl_cons]
    exact le_trans (by omega) (ih _)

theorem parseUintLoop_digits (ds : GoString) (n : Nat)
    (hd : ∀ c ∈ ds, isDigit c = true)
    (hr : ds.foldl (fun acc c => 10 * acc + digitVal c) n < 18446744073709551616) :
    parseUintLoop ds n = .ok (ds.foldl (fun acc c => 10 * acc + digitVal c) n) := by
  induction ds generalizing n with
  | nil => simp [parseUintLoop]
  | cons c cs ih =>
    simp only [List.foldl_cons] at hr ⊢
    have hge := foldl_digit_ge cs (10 * n + digitVal c)
    have hc : isDigit c = true := hd c (by simp)
    have h1 : ¬ (n ≥ 18446744073709551615 / 10 + 1) := by omega
    have h2 : (n * 10 + digitVal c) % 18446744073709551616 = 10 * n + digitVal c := by omega
    simp only [parseUintLoop, hc, if_true, h1, if_false, h2]
    have h3 : ¬ (10 * n + digitVal c < n * 10) := by omega
    simp only [h3, if_false]
    exact ih _ (fun c hc => hd c (by simp [hc])) hr

theorem wrap64_of_range {x : Int} (h1 : -9223372036854775808 ≤ x) (h2 : x < 9223372036854775808) :
    wrap64 x = x := by
  unfold wrap64; omega

theorem wrap64_range (x : Int) :
    -9223372036854775808 ≤ wrap64 x ∧ wrap64 x < 9223372036854775808 := by
  unfold wrap64; omega

theorem isDigit_ne_plus {c : Char} (h : isDigit c = true) : (c == '+') = false := by
  have hb := isDigit_bounds h
  rw [beq_eq_false_iff_ne]
  apply ne_of_toNat_ne
  have : ('+' : Char).toNat = 43 := rfl
  omega

theorem isDigit_ne_minus {c : Char} (h : isDigit c = true) : (c == '-') = false := by
  have hb := isDigit_bounds h
  rw [beq_eq_false_iff_ne]
  apply ne_of_toNat_ne
  have : ('-' : Char).toNat = 45 := rfl
  omega

theorem isDigit_ne_comma {c : Char} (h : isDigit c = true) : c ≠ ',' := by
  have hb := isDigit_bounds h
  apply ne_of_toNat_ne
  have : (',' : Char).toNat = 44 := rfl
  omega

theorem isDigit_ne_dot {c : Char} (h : isDigit c = true) : c ≠ '.' := by
  have hb := isDigit_bounds h
  apply ne_of_toNat_ne
  have : ('.' : Char).toNat = 46 := rfl
  omega

theorem ParseUint_digits {ds : GoString} (hd : IsDecimal ds)
    (hr : decimalValue ds < 18446744073709551616) :
    ParseUint ds = .ok (decimalValue ds) := by
  obtain ⟨hne, hall⟩ := hd
  cases ds with
  | nil => exact absurd rfl hne
  | cons c cs => exact parseUintLoop_digits (c :: cs) 0 hall hr

theorem ParseInt_digits {ds : GoString} (hd : IsDecimal ds)
    (hr : decimalValue ds < 9223372036854775808) :
    ParseInt ds = .ok (decimalValue ds : Int) := by
  have hu := ParseUint_digits hd (by omega)
  obtain ⟨hne, hall⟩ := hd
  cases ds with
  | nil => exact absurd rfl hne
  | cons c cs =>
    have hc : isDigit c = true := hall c (by simp)
    have h1 : ¬ (decimalValue (c :: cs) ≥ 9223372036854775808) := by omega
    have hw : wrap64 (decimalValue (c :: cs) : Int) = (decimalValue (c :: cs) : Int) :=
      wrap64_of_range (by omega) (by omega)
    simp only [ParseInt, isDigit_ne_plus hc, isDigit_ne_minus hc, Bool.or_false,
      Bool.false_eq_true, if_false, hu, Bool.not_false, Bool.true_and, Bool.false_and,
      decide_eq_true_eq, h1, hw]

theorem SkipSpace_of_not_space {c : Char} (rest : GoString) (h : isSpace c = false) :
    SkipSpace (c :: rest) = some (c :: rest) := by
  have hr : c ≠ '\r' := by rintro rfl; revert h; decide
  have hn : c ≠ '\n' := by rintro rfl; revert h; decide
  simp [SkipSpace, hr, hn, h]

theorem takeWhile_append_stop {α : Type} (p : α → Bool) (xs rest : List α)
    (hx : ∀ x ∈ xs, p x = true) (hr : ∀ y, rest.head? = some y → p y = false) :
    (xs ++ rest).takeWhile p = xs ∧ (xs ++ rest).dropWhile p = rest := by
  induction xs with
  | nil =>
    cases rest with
    | nil => simp
    | cons y ys =>
      have := hr y rfl
      simp [List.takeWhile, List.dropWhile, this]
  | cons x xs ih =>
    have hpx := hx x (by simp)
    have := ih (fun y hy => hx y (by simp [hy]))
    simp [List.takeWhile, List.dropWhile, hpx, this]


theorem scanInt_digits {ds : GoString} (rest : GoString) (hd : IsDecimal ds)
    (hr : decimalValue ds < 9223372036854775808) (hs : StopsNumber rest) :
    scanInt (ds ++ rest) = some ((decimalValue ds : Int), rest) := by
  have hp := ParseInt_digits hd hr
  obtain ⟨hne, hall⟩ := hd
  have htd := takeWhile_append_stop isDigit ds rest hall hs
  cases ds with
  | nil => exact absurd rfl hne
  | cons c cs =>
    have hc : isDigit c = true := hall c (by simp)
    have hsk := SkipSpace_of_not_space (cs ++ rest) (isDigit_not_space hc)
    simp only [List.cons_append] at htd ⊢
    simp only [scanInt, hsk, isDigit_ne_plus hc, isDigit_ne_minus hc, Bool.or_false,
      Bool.false_eq_true, if_false, htd.1, htd.2, List.nil_append, hp]

theorem scanVerbD_digits {ds : GoString} (rest : GoString) (hd : IsDecimal ds)
    (hr : decimalValue ds < 9223372036854775808) (hs : StopsNumber rest) :
    scanVerbD (ds ++ rest) = some ((decimalValue ds : Int), rest) := by
  have h := scanInt_digits rest hd hr hs
  obtain ⟨hne, hall⟩ := hd
  cases ds with
  | nil => exact absurd rfl hne
  | cons c cs =>
    have hc : isDigit c = true := hall c (by simp)
    have hsk := SkipSpace_of_not_space (cs ++ rest) (isDigit_not_space hc)
    simp only [List.cons_append] at h ⊢
    simp only [scanVerbD, hsk, h]

theorem ReplaceAllCommaDot_digits {ds : GoString} (h : ∀ c ∈ ds, isDigit c = true) :
    ReplaceAllCommaDot ds = ds := by
  unfold ReplaceAllCommaDot
  induction ds with
  | nil => rfl
  | cons c cs ih =>
    have hc := isDigit_ne_comma (h c (by simp))
    simp only [List.map_cons, hc, if_false]
    rw [ih (fun x hx => h x (by simp [hx]))]

theorem ReplaceAllCommaDot_append (xs ys : GoString) :
    ReplaceAllCommaDot (xs ++ ys) = ReplaceAllCommaDot xs ++ ReplaceAllCommaDot ys := by
  simp [ReplaceAllCommaDot]

theorem stopsNumber_nil : StopsNumber [] := by
  intro y h; simp at h

theorem stopsNumber_dot (fs : GoString) : StopsNumber ('.' :: fs) := by
  intro y h
  simp only [List.head?_cons, Option.some.injEq] at h
  subst h; decide

/-- What `Sscanf "%d.%d"` stores for `d.f` when both numerals fit an `int`. -/
theorem SscanfDDotD_decimal {ds fs : GoString} (hd : IsDecimal ds) (hf : IsDecimal fs)
    (hdr : decimalValue ds < 9223372036854775808)
    (hfr : decimalValue fs < 9223372036854775808) (a0 b0 : Int) :
    SscanfDDotD (ds ++ '.' :: fs) a0 b0 = ((decimalValue ds : Int), (decimalValue fs : Int)) := by
  have h1 := scanVerbD_digits ('.' :: fs) hd hdr (stopsNumber_dot fs)
  have h2 := scanVerbD_digits [] hf hfr stopsNumber_nil
  rw [List.append_nil] at h2
  simp only [SscanfDDotD, h1, h2, if_true]

/-- The price string `d<sep>f` after `ReplaceAll(price, ",", ".")`. -/
theorem ReplaceAllCommaDot_price {ds fs : GoString} {sep : Char} (hd : IsDecimal ds)
    (hf : IsDecimal fs) (hsep : sep = '.' ∨ sep = ',') :
    ReplaceAllCommaDot (ds ++ sep :: fs) = ds ++ '.' :: fs := by
  rw [ReplaceAllCommaDot_append, ReplaceAllCommaDot_digits hd.2]
  have : ReplaceAllCommaDot (sep :: fs) = '.' :: ReplaceAllCommaDot fs := by
    rcases hsep with rfl | rfl <;> simp [ReplaceAllCommaDot]
  rw [this, ReplaceAllCommaDot_digits hf.2]

theorem Contains_dot_append (ds fs : GoString) : Contains (ds ++ '.' :: fs) '.' = true := by
  simp [Contains]

theorem createPriceCents_fraction {ds fs : GoString} {sep : Char} (hd : IsDecimal ds)
    (hf : IsDecimal fs) (hsep : sep = '.' ∨ sep = ',')
    (hdr : decimalValue ds < 9223372036854775808)
    (hfr : decimalValue fs < 9223372036854775808) :
    createPriceCents (ds ++ sep :: fs) =
      wrap64 (wrap64 ((decimalValue ds : Int) * 100) +
        (if (decimalValue fs : Int) > 99 then 99 else (decimalValue fs : Int))) := by
  simp only [createPriceCents, ReplaceAllCommaDot_price hd hf hsep, Contains_dot_append,
    if_true, SscanfDDotD_decimal hd hf hdr hfr]

theorem updatePriceCents_eq (price : GoString) :
    updatePriceCents price = createPriceCents price := rfl

theorem Contains_dot_digits {ds : GoString} (h : ∀ c ∈ ds, isDigit c = true) :
    Contains ds '.' = false := by
  unfold Contains
  rw [List.any_eq_false]
  intro c hc
  simpa using isDigit_ne_dot (h c hc)

/-- A price written as a decimal integer is stored as that integer times 100
when the product fits an `int`. -/
theorem createPriceCents_integer {ds : GoString} (hd : IsDecimal ds)
    (hr : 100 * decimalValue ds < 9223372036854775808) :
    createPriceCents ds = 100 * (decimalValue ds : Int) := by
  have h1 := scanVerbD_digits [] hd (by omega) stopsNumber_nil
  rw [List.append_nil] at h1
  have hw : wrap64 ((decimalValue ds : Int) * 100) = (decimalValue ds : Int) * 100 :=
    wrap64_of_range (by omega) (by omega)
  simp only [createPriceCents, ReplaceAllCommaDot_digits hd.2, Contains_dot_digits hd.2,
    Bool.false_eq_true, if_false, SscanfD, h1, hw]
  ring

/-- A price with two fractional digits `a`, `b` is stored as
`100*d + 10*a + b`. -/
theorem createPriceCents_two_fraction_digits {ds : GoString} {a b sep : Char}
    (hd : IsDecimal ds) (ha : isDigit a = true) (hb : isDigit b = true)
    (hsep : sep = '.' ∨ sep = ',') (hr : 100 * decimalValue ds + 99 < 9223372036854775808) :
    createPriceCents (ds ++ sep :: [a, b]) =
      100 * (decimalValue ds : Int) + 10 * (digitVal a : Int) + (digitVal b : Int) := by
  have hf : IsDecimal [a, b] := ⟨by simp, by
    intro c hc
    simp only [List.mem_cons, List.mem_singleton, List.not_mem_nil, or_false] at hc
    rcases hc with rfl | rfl
    · exact ha
    · exact hb⟩
  have hv : decimalValue [a, b] = 10 * digitVal a + digitVal b := by
    simp [decimalValue]
  have hba := isDigit_bounds ha
  have hbb := isDigit_bounds hb
  have hda : digitVal a ≤ 9 := by unfold digitVal; omega
  have hdb : digitVal b ≤ 9 := by unfold digitVal; omega
  have h := createPriceCents_fraction hd hf hsep (by omega) (by rw [hv]; omega)
  have hle : ¬ ((decimalValue [a, b] : Int) > 99) := by rw [hv]; omega
  have hw : wrap64 ((decimalValue ds : Int) * 100) = (decimalValue ds : Int) * 100 :=
    wrap64_of_range (by omega) (by omega)
  rw [if_neg hle, hw, wrap64_of_range (by rw [hv]; omega) (by rw [hv]; omega), hv] at h
  rw [h]
  push_cast
  ring

/-- A price with one fractional digit `a` is stored as `100*d + a`. -/
theorem createPriceCents_one_fraction_digit {ds : GoString} {a sep : Char}
    (hd : IsDecimal ds) (ha : isDigit a = true) (hsep : sep = '.' ∨ sep = ',')
    (hr : 100 * decimalValue ds + 99 < 9223372036854775808) :
    createPriceCents (ds ++ sep :: [a]) = 100 * (decimalValue ds : Int) + (digitVal a : Int) := by
  have hf : IsDecimal [a] := ⟨by simp, by
    intro c hc
    simp only [List.mem_singleton] at hc
    rw [hc]; exact ha⟩
  have hv : decimalValue [a] = digitVal a := by
    simp [decimalValue]
  have hba := isDigit_bounds ha
  have hda : digitVal a ≤ 9 := by unfold digitVal; omega
  have h := createPriceCents_fraction hd hf hsep (by omega) (by rw [hv]; omega)
  have hle : ¬ ((decimalValue [a] : Int) > 99) := by rw [hv]; omega
  have hw : wrap64 ((decimalValue ds : Int) * 100) = (decimalValue ds : Int) * 100 :=
    wrap64_of_range (by omega) (by omega)
  rw [if_neg hle, hw, wrap64_of_range (by rw [hv]; omega) (by rw [hv]; omega), hv] at h
  rw [h]
  ring

/-! ## C1: one fractional digit -/

/-- C1 (evaluation at the failing input): the create and the update handler
store 1205 cents for the price strings "12.5" and "12,5", not the 1250 cents
they store for "12.50"; "12" and "12.34" give 1200 and 1234. -/
theorem C1_one_fraction_digit_is_read_as_cents :
    createPriceCents "12.5".toList = 1205 ∧ updatePriceCents "12.5".toList = 1205 ∧
    createPriceCents "12,5".toList = 1205 ∧ updatePriceCents "12,5".toList = 1205 ∧
    createPriceCents "12.50".toList = 1250 ∧ updatePriceCents "12.50".toList = 1250 ∧
    createPriceCents "12".toList = 1200 ∧ createPriceCents "12.34".toList = 1234 ∧
    createPriceCents "12,34".toList = 1234 := by
  decide

/-! ## C2: the clamp of the fractional part -/

/-- C2 (counterexample): a fractional part whose value does not fit an `int`
is not clamped to 99 but read as 0, and an integer part that does not fit
leaves both operands 0: "1.99999999999999999999" is stored as 100 cents, not
199, and "99999999999999999999.345" as 0. -/
theorem C2_counterexample_fraction_out_of_range :
    IsDecimal "1".toList ∧ IsDecimal "99999999999999999999".toList ∧
    99 < decimalValue "99999999999999999999".toList ∧
    createPriceCents "1.99999999999999999999".toList = 100 ∧
    createPriceCents "1.99999999999999999999".toList ≠
      100 * (decimalValue "1".toList : Int) + 99 ∧
    IsDecimal "345".toList ∧ 99 < decimalValue "345".toList ∧
    createPriceCents "99999999999999999999.345".toList = 0 := by
  refine ⟨⟨by decide, by decide⟩, ⟨by decide, by decide⟩, by decide, by decide, by decide,
    ⟨by decide, by decide⟩, by decide, by decide⟩

/-- C2 (amended): for a price string `d.f` or `d,f` in which `f` is a digit
string with value above 99 that fits an `int` and `100*d + 99` fits an `int`,
both handlers store `100*d + 99`; and the create and update handlers compute
the same PriceCents for every price string. -/
theorem C2_fraction_clamped_at_99 (ds fs : GoString) (sep : Char)
    (hd : IsDecimal ds) (hf : IsDecimal fs) (hsep : sep = '.' ∨ sep = ',')
    (hdr : 100 * decimalValue ds + 99 < 9223372036854775808)
    (hf99 : 99 < decimalValue fs) (hfr : decimalValue fs < 9223372036854775808) :
    createPriceCents (ds ++ sep :: fs) = 100 * (decimalValue ds : Int) + 99 ∧
    updatePriceCents (ds ++ sep :: fs) = 100 * (decimalValue ds : Int) + 99 ∧
    ∀ price : GoString, createPriceCents price = updatePriceCents price := by
  have h := createPriceCents_fraction hd hf hsep (by omega) hfr
  have h99 : ((decimalValue fs : Int) > 99) := by omega
  have hw : wrap64 ((decimalValue ds : Int) * 100) = (decimalValue ds : Int) * 100 :=
    wrap64_of_range (by omega) (by omega)
  rw [if_pos h99, hw, wrap64_of_range (by omega) (by omega)] at h
  refine ⟨by rw [h]; ring, by rw [updatePriceCents_eq, h]; ring, fun _ => rfl⟩

/-- C2 (witness): "12.345" and "12,345" are stored as 1299 cents. -/
theorem C2_fraction_clamped_at_99_witness :
    createPriceCents "12.345".toList = 1299 ∧ updatePriceCents "12,345".toList = 1299 := by
  have hd : IsDecimal "12".toList := ⟨by decide, by decide⟩
  have hf : IsDecimal "345".toList := ⟨by decide, by decide⟩
  have h1 := C2_fraction_clamped_at_99 "12".toList "345".toList '.' hd hf (Or.inl rfl)
    (by decide) (by decide) (by decide)
  have h2 := C2_fraction_clamped_at_99 "12".toList "345".toList ',' hd hf (Or.inr rfl)
    (by decide) (by decide) (by decide)
  exact ⟨h1.1, h2.2.1⟩

/-! ## C3: stock parsing -/

theorem ParseInt_minus_nonpos (tok : GoString) (i : Int)
    (h : ParseInt ('-' :: tok) = .ok i) : i ≤ 0 := by
  simp only [ParseInt] at h
  have e2 : (('-' : Char) == '-') = true := by decide
  simp only [e2, Bool.or_true, if_true, Bool.not_true, Bool.false_and, Bool.false_eq_true,
    if_false, Bool.true_and, decide_eq_true_eq] at h
  cases hu : ParseUint tok with
  | error e => rw [hu] at h; simp at h
  | ok un =>
    rw [hu] at h
    simp only at h
    by_cases hgt : un > 9223372036854775808
    · simp [hgt] at h
    · simp only [hgt, if_false, Except.ok.injEq] at h
      rw [← h]
      unfold wrap64
      omega

theorem scanVerbD_minus_nonpos (rest r : GoString) (i : Int)
    (h : scanVerbD ('-' :: rest) = some (i, r)) : i ≤ 0 := by
  have hsk := SkipSpace_of_not_space (c := '-') rest (by decide)
  have e1 : (('-' : Char) == '+' || ('-' : Char) == '-') = true := by decide
  simp only [scanVerbD, hsk, scanInt, e1, if_true] at h
  cases ht : List.takeWhile isDigit rest with
  | nil => rw [ht] at h; simp at h
  | cons t ts =>
    rw [ht] at h
    simp only [List.singleton_append] at h
    cases hp : ParseInt ('-' :: t :: ts) with
    | error e => rw [hp] at h; simp at h
    | ok j =>
      rw [hp] at h
      simp only [Option.some.injEq, Prod.mk.injEq] at h
      rw [← h.1]
      exact ParseInt_minus_nonpos _ _ hp

theorem scanVerbD_nonnumeric (c : Char) (tail : GoString) (h1 : isSpace c = false)
    (h2 : c ≠ '+') (h3 : c ≠ '-') (h4 : isDigit c = false) :
    scanVerbD (c :: tail) = none := by
  have hsk := SkipSpace_of_not_space tail h1
  have e1 : (c == '+' || c == '-') = false := by simp [h2, h3]
  simp only [scanVerbD, hsk, scanInt, e1, Bool.false_eq_true, if_false, List.nil_append]
  simp only [List.takeWhile, h4]

/-- C3 (counterexample): the stock string "12abc" is not a decimal integer, yet
both handlers store 12 for it (`Sscanf` reads the leading integer and ignores
what follows), and the decimal integer "9223372036854775808" is stored as 0. -/
theorem C3_counterexample_trailing_text :
    ¬ IsDecimal "12abc".toList ∧ createStock "12abc".toList = 12 ∧
    updateStock "12abc".toList = 12 ∧ createStock "12abc".toList ≠ 0 ∧
    IsDecimal "9223372036854775808".toList ∧
    createStock "9223372036854775808".toList = 0 ∧
    decimalValue "9223372036854775808".toList ≠ 0 := by
  refine ⟨?_, by decide, by decide, by decide, ⟨by decide, by decide⟩, by decide, by decide⟩
  intro h
  exact absurd (h.2 'a' (by decide)) (by decide)

/-- C3 (amended): the stored Stock is never negative; an input that starts
with a minus sign is stored as 0; an input whose first rune is neither white
space, a sign nor a digit is stored as 0; and an input that starts with a
decimal numeral `n < 2^63`, followed by nothing or by a rune that is not a
digit, is stored as `n`, whatever follows. -/
theorem C3_stock_is_leading_integer_clamped_at_zero (ds rest tail : GoString) (c : Char)
    (hd : IsDecimal ds) (hr : decimalValue ds < 9223372036854775808) (hs : StopsNumber rest)
    (hc1 : isSpace c = false) (hc2 : c ≠ '+') (hc3 : c ≠ '-') (hc4 : isDigit c = false) :
    (∀ stock : GoString, 0 ≤ createStock stock ∧ 0 ≤ updateStock stock) ∧
    (∀ stock : GoString, createStock ('-' :: stock) = 0 ∧ updateStock ('-' :: stock) = 0) ∧
    createStock (c :: tail) = 0 ∧ updateStock (c :: tail) = 0 ∧
    createStock [] = 0 ∧ updateStock [] = 0 ∧
    createStock (ds ++ rest) = (decimalValue ds : Int) ∧
    updateStock (ds ++ rest) = (decimalValue ds : Int) := by
  have hnn : ∀ stock : GoString, 0 ≤ createStock stock := by
    intro stock
    unfold createStock
    simp only
    split <;> omega
  have hneg : ∀ stock : GoString, createStock ('-' :: stock) = 0 := by
    intro stock
    unfold createStock SscanfD
    cases hsc : scanVerbD ('-' :: stock) with
    | none => simp
    | some p =>
      obtain ⟨i, r⟩ := p
      have := scanVerbD_minus_nonpos stock r i hsc
      simp only
      split <;> omega
  have hnon : createStock (c :: tail) = 0 := by
    simp [createStock, SscanfD, scanVerbD_nonnumeric c tail hc1 hc2 hc3 hc4]
  have hdig : createStock (ds ++ rest) = (decimalValue ds : Int) := by
    simp only [createStock, SscanfD, scanVerbD_digits rest hd hr hs]
    split <;> omega
  exact ⟨fun s => ⟨hnn s, hnn s⟩, fun s => ⟨hneg s, hneg s⟩, hnon, hnon, by decide, by decide,
    hdig, hdig⟩

/-- C3 (witness): "12" followed by "abc" is stored as 12, "-5" and "abc" as 0. -/
theorem C3_stock_is_leading_integer_clamped_at_zero_witness :
    createStock "12abc".toList = 12 ∧ createStock "-5".toList = 0 ∧
    createStock "abc".toList = 0 ∧ updateStock "12".toList = 12 := by
  have h := C3_stock_is_leading_integer_clamped_at_zero "12".toList "abc".toList "bc".toList 'a'
    ⟨by decide, by decide⟩ (by decide)
    (by intro y hy; simp only [String.toList, List.head?_cons, Option.some.injEq] at hy
        subst hy; decide)
    (by decide) (by decide) (by decide) (by decide)
  have h0 := C3_stock_is_leading_integer_clamped_at_zero "12".toList [] "bc".toList 'a'
    ⟨by decide, by decide⟩ (by decide) stopsNumber_nil
    (by decide) (by decide) (by decide) (by decide)
  exact ⟨h.2.2.2.2.2.2.1, (h.2.1 "5".toList).1, h.2.2.1, by simpa using h0.2.2.2.2.2.2.2⟩

/-! ## Lemmas on the cart map -/

theorem Cart.lookup_delete_self (m : Cart) (k : GoString) :
    (Cart.delete m k).lookup k = none := by
  induction m with
  | nil => rfl
  | cons e es ih =>
    obtain ⟨a, b⟩ := e
    by_cases h : a = k
    · subst h
      simpa [Cart.delete, List.filter] using ih
    · have hb : (a == k) = false := by simpa using h
      have hb2 : (k == a) = false := by simpa using fun e => h e.symm
      simp only [Cart.delete, List.filter, hb, Bool.not_false, List.lookup, hb2]
      exact ih

theorem Cart.lookup_delete_ne (m : Cart) {k j : GoString} (h : j ≠ k) :
    (Cart.delete m k).lookup j = m.lookup j := by
  induction m with
  | nil => rfl
  | cons e es ih =>
    obtain ⟨a, b⟩ := e
    by_cases ha : a = k
    · subst ha
      have hb : (j == a) = false := by simpa using h
      simpa [Cart.delete, List.filter, List.lookup, hb] using ih
    · have hb : (a == k) = false := by simpa using ha
      simp only [Cart.delete, List.filter, hb, Bool.not_false, List.lookup]
      cases hj : (j == a) with
      | true => rfl
      | false => exact ih

theorem Cart.lookup_set_self (m : Cart) (k : GoString) (v : Int) :
    (Cart.set m k v).lookup k = some v := by
  simp [Cart.set, List.lookup]

theorem Cart.lookup_set_ne (m : Cart) {k j : GoString} (v : Int) (h : j ≠ k) :
    (Cart.set m k v).lookup j = m.lookup j := by
  have hb : (j == k) = false := by simpa using h
  simp only [Cart.set, List.lookup, hb]
  exact Cart.lookup_delete_ne m h

theorem Cart.get_set_self (m : Cart) (k : GoString) (v : Int) :
    Cart.get (Cart.set m k v) k = v := by
  simp [Cart.get, Cart.lookup_set_self]

theorem SscanfD_nil (x0 : Int) : SscanfD [] x0 = x0 := rfl

/-- A `Save` of values that hold a cart writes nothing. -/
theorem Save_with_cart (stored values : Session) (cart : Cart) (h : values.cart = some cart) :
    Save stored values = stored := by
  unfold Save
  rw [h]

/-- A `Save` of values without a cart writes them. -/
theorem Save_without_cart (stored values : Session) (h : values.cart = none) :
    Save stored values = values := by
  unfold Save
  rw [h]

/-- The helper `saveCart` leaves the session as it was stored. -/
theorem saveCart_eq (sess : Session) (cart : Cart) : saveCart sess cart = sess := rfl

/-- The handler of `POST /cart/add` leaves the stored session as it was. -/
theorem cartAdd_session (env : Env) (db : DB) (sess : Session) (pid qtyForm : GoString) :
    (cartAdd env db sess pid qtyForm).2 = sess := by
  by_cases hid : TrimSpace pid = []
  · simp only [cartAdd, hid, if_true]
  · cases hp : firstProduct env db (TrimSpace pid) with
    | none => simp only [cartAdd, hid, if_false, hp]
    | some p =>
      by_cases hs : p.Stock ≤ 0
      · simp only [cartAdd, hid, if_false, hp, hs, if_true]
      · simp only [cartAdd, hid, if_false, hp, hs, saveCart_eq]

/-- The handler of `POST /cart/update` redirects to /cart and leaves the stored
session as it was. -/
theorem cartUpdate_eq (sess : Session) (pid qtyForm : GoString) :
    cartUpdate sess pid qtyForm = (.redirect StatusSeeOther "/cart".toList, sess) := by
  by_cases hid : TrimSpace pid = []
  · simp only [cartUpdate, hid, if_true]
  · simp only [cartUpdate, hid, if_false, saveCart_eq]

/-- The handler of `POST /cart/remove` redirects to /cart and leaves the stored
session as it was. -/
theorem cartRemove_eq (sess : Session) (pid : GoString) :
    cartRemove sess pid = (.redirect StatusSeeOther "/cart".toList, sess) := by
  by_cases hid : TrimSpace pid = []
  · simp only [cartRemove, hid, if_true]
  · simp only [cartRemove, hid, if_false, saveCart_eq]

/-- The map that an add hands to `saveCart` holds the previous quantity plus
the added one, when the previous one is not negative and the sum fits. -/
theorem cartAddWrites_accumulates (cart : Cart) (id : GoString) (qty : Int)
    (hq : 0 < qty) (hprev : 0 ≤ Cart.get cart id)
    (hov : Cart.get cart id + qty < 9223372036854775808) :
    (cartAddWrites cart id qty).lookup id = some (Cart.get cart id + qty) ∧
    ∀ k : GoString, k ≠ id → (cartAddWrites cart id qty).lookup k = cart.lookup k := by
  have hw : wrap64 (Cart.get cart id + qty) = Cart.get cart id + qty :=
    wrap64_of_range (by omega) (by omega)
  have hlt : ¬ (Cart.get cart id + qty < 1) := by omega
  simp only [cartAddWrites, hw, Cart.get_set_self, hlt, if_false]
  exact ⟨Cart.lookup_set_self _ _ _, fun k hk => Cart.lookup_set_ne _ _ hk⟩

/-- The map that an update hands to `saveCart` holds exactly `qty` for the id
when `qty` is positive and no entry for it otherwise, like the map of a
remove, with every other entry as before. -/
theorem cartUpdateWrites_entry (cart : Cart) (id : GoString) (qty : Int) :
    (0 < qty → (cartUpdateWrites cart id qty).lookup id = some qty) ∧
    (qty ≤ 0 → cartUpdateWrites cart id qty = Cart.delete cart id) ∧
    (Cart.delete cart id).lookup id = none ∧
    ∀ k : GoString, k ≠ id → (cartUpdateWrites cart id qty).lookup k = cart.lookup k ∧
      (Cart.delete cart id).lookup k = cart.lookup k := by
  refine ⟨?_, ?_, Cart.lookup_delete_self _ _, ?_⟩
  · intro hq
    have hq' : ¬ (qty ≤ 0) := by omega
    simp only [cartUpdateWrites, hq', if_false]
    exact Cart.lookup_set_self _ _ _
  · intro hq
    simp only [cartUpdateWrites, hq, if_true]
  · intro k hk
    refine ⟨?_, Cart.lookup_delete_ne _ hk⟩
    by_cases hq : qty ≤ 0
    · simp only [cartUpdateWrites, hq, if_true]
      exact Cart.lookup_delete_ne _ hk
    · simp only [cartUpdateWrites, hq, if_false]
      exact Cart.lookup_set_ne _ _ hk

/-- Every sequence of cart requests leaves the stored session as it was. -/
theorem runCartOps_session (env : Env) (reqs : List (DB × CartOp)) (sess : Session) :
    runCartOps env sess reqs = sess := by
  unfold runCartOps
  induction reqs with
  | nil => rfl
  | cons r rs ih =>
    rw [List.foldl_cons]
    have : applyCartOp env sess r = sess := by
      obtain ⟨db, op⟩ := r
      cases op with
      | add productId qty => exact cartAdd_session env db sess productId qty
      | update productId qty => exact congrArg Prod.snd (cartUpdate_eq sess productId qty)
      | remove productId => exact congrArg Prod.snd (cartRemove_eq sess productId)
    rw [this]
    exact ih

/-! ## C4: cart add -/

/-- C4 (evaluation at the failing input): no add changes the stored session,
for any database, session and form values; from the empty cart, with product
7 in stock, add("7", 2) and then add("7", 3) are both answered with the
redirect to /cart and leave the session without a cart, so the quantity read
for "7" is 0 and no entry is found, not 0 + 2 + 3; the maps the handler builds
from the empty cart hold 2 for "7", and 5 if the first had been kept. -/
theorem C4_add_is_not_stored :
    (∀ (env : Env) (db : DB) (sess : Session) (pid qty : GoString),
      (cartAdd env db sess pid qty).2 = sess) ∧
    (∃ p, firstProduct sampleEnv sampleDB "7".toList = some p ∧ 0 < p.Stock) ∧
    cartAdd sampleEnv sampleDB (guestSession none) "7".toList "2".toList =
      (.redirect StatusSeeOther "/cart".toList, guestSession none) ∧
    cartAdd sampleEnv sampleDB
        (cartAdd sampleEnv sampleDB (guestSession none) "7".toList "2".toList).2
        "7".toList "3".toList =
      (.redirect StatusSeeOther "/cart".toList, guestSession none) ∧
    (getCart (cartAdd sampleEnv sampleDB
        (cartAdd sampleEnv sampleDB (guestSession none) "7".toList "2".toList).2
        "7".toList "3".toList).2).lookup "7".toList = none ∧
    Cart.get (getCart (cartAdd sampleEnv sampleDB
        (cartAdd sampleEnv sampleDB (guestSession none) "7".toList "2".toList).2
        "7".toList "3".toList).2) "7".toList = 0 ∧
    (0 : Int) ≠ 0 + 2 + 3 ∧
    (cartAddWrites (getCart (guestSession none)) "7".toList 2).lookup "7".toList = some 2 ∧
    (cartAddWrites (cartAddWrites (getCart (guestSession none)) "7".toList 2)
      "7".toList 3).lookup "7".toList = some 5 := by
  refine ⟨cartAdd_session, ⟨⟨7, 0, 0, 2, "lamp".toList, [], 1250, 4, []⟩, by decide, by decide⟩,
    by decide, by decide, by decide, by decide, by decide, by decide, by decide⟩

/-! ## C5: cart update and remove -/

/-- C5 (evaluation at the failing input): every update and every remove is
answered with the redirect to /cart and leaves the stored session as it was,
for any session and form values; from the empty cart, update("7", 2), with the
parsed quantity 2, leaves the session without a cart, so no entry is found for
"7" where the claim has the quantity 2; the map the handler builds holds 2 for
"7". -/
theorem C5_update_is_not_stored :
    (∀ (sess : Session) (pid qty : GoString),
      cartUpdate sess pid qty = (.redirect StatusSeeOther "/cart".toList, sess)) ∧
    (∀ (sess : Session) (pid : GoString),
      cartRemove sess pid = (.redirect StatusSeeOther "/cart".toList, sess)) ∧
    TrimSpace "7".toList ≠ [] ∧ SscanfD (TrimSpace "2".toList) 0 = 2 ∧
    cartUpdate (guestSession none) "7".toList "2".toList =
      (.redirect StatusSeeOther "/cart".toList, guestSession none) ∧
    (getCart (cartUpdate (guestSession none) "7".toList "2".toList).2).lookup "7".toList
      = none ∧
    (none : Option Int) ≠ some 2 ∧
    (cartUpdateWrites (getCart (guestSession none)) "7".toList 2).lookup "7".toList
      = some 2 := by
  refine ⟨cartUpdate_eq, cartRemove_eq, by decide, by decide, by decide, by decide,
    by decide, by decide⟩

/-! ## C6: cart view -/

theorem wrap64_wrap64_add (a b : Int) : wrap64 (wrap64 a + b) = wrap64 (a + b) := by
  unfold wrap64; omega

theorem wrap64_idem (a : Int) : wrap64 (wrap64 a) = wrap64 a := by
  unfold wrap64; omega

/-- The row the loop of `GET /cart` appends for an entry, if its product is
found. -/
theorem cartViewStep_eq (env : Env) (db : DB) (acc : List Row × Int) (e : GoString × Int) :
    cartViewStep env db acc e =
      match (firstProduct env db e.1).map
          (fun p => (⟨p, e.2, wrap64 (p.PriceCents * e.2)⟩ : Row)) with
      | some r => (acc.1 ++ [r], wrap64 (acc.2 + r.SubtotalCents))
      | none => acc := by
  unfold cartViewStep
  cases firstProduct env db e.1 <;> rfl

theorem cartViewLoop_rows_aux (env : Env) (db : DB) (es : List (GoString × Int))
    (acc : List Row × Int) :
    (es.foldl (cartViewStep env db) acc).1 =
      acc.1 ++ es.filterMap (fun e => (firstProduct env db e.1).map
        (fun p => (⟨p, e.2, wrap64 (p.PriceCents * e.2)⟩ : Row))) := by
  induction es generalizing acc with
  | nil => simp
  | cons e es ih =>
    rw [List.foldl_cons, ih, cartViewStep_eq]
    cases h : firstProduct env db e.1 with
    | none => simp [List.filterMap_cons, h]
    | some p => simp [List.filterMap_cons, h]

theorem cartViewLoop_total_aux (env : Env) (db : DB) (es : List (GoString × Int))
    (acc : List Row × Int) :
    wrap64 (es.foldl (cartViewStep env db) acc).2 =
      wrap64 (acc.2 + ((es.filterMap (fun e => (firstProduct env db e.1).map
        (fun p => (⟨p, e.2, wrap64 (p.PriceCents * e.2)⟩ : Row)))).map
            Row.SubtotalCents).sum) := by
  induction es generalizing acc with
  | nil => simp
  | cons e es ih =>
    rw [List.foldl_cons, ih, cartViewStep_eq]
    cases h : firstProduct env db e.1 with
    | none => simp [List.filterMap_cons, h]
    | some p =>
      simp only [List.filterMap_cons, h, Option.map_some', List.map_cons, List.sum_cons]
      rw [wrap64_wrap64_add, add_assoc]

theorem cartViewLoop_total_wrapped (env : Env) (db : DB) (es : List (GoString × Int))
    (acc : List Row × Int) (hacc : wrap64 acc.2 = acc.2) :
    wrap64 (es.foldl (cartViewStep env db) acc).2 = (es.foldl (cartViewStep env db) acc).2 := by
  induction es generalizing acc with
  | nil => simpa using hacc
  | cons e es ih =>
    rw [List.foldl_cons]
    apply ih
    rw [cartViewStep_eq]
    cases h : firstProduct env db e.1 with
    | none => simpa using hacc
    | some p => simp [wrap64_idem]

theorem cartViewLoop_total (env : Env) (db : DB) (es : List (GoString × Int)) :
    (cartViewLoop env db es).2 = wrap64 (((cartViewLoop env db es).1.map Row.SubtotalCents).sum) := by
  unfold cartViewLoop
  rw [← cartViewLoop_total_wrapped env db es ([], 0) (by decide),
    cartViewLoop_total_aux, cartViewLoop_rows_aux]
  simp

theorem length_filterMap_isSome {α β : Type} (f : α → Option β) (l : List α) :
    (l.filterMap f).length = l.countP (fun a => (f a).isSome) := by
  induction l with
  | nil => rfl
  | cons a l ih =>
    cases h : f a with
    | none => simp [List.filterMap_cons, h, ih]
    | some b => simp [List.filterMap_cons, h, ih]

/-- C6: the view has, in visiting order, exactly one row for each cart entry
whose product is found and none for the others; each row's SubtotalCents is
the Go `int` product of PriceCents and the quantity, which is their exact
product whenever that fits an `int`; TotalCents is the Go `int` sum of the
rows' subtotals, their exact sum whenever that fits; rows (up to order) and
total do not depend on the order in which the entries are visited; the stored
session, cart included, is the same after the view; a session without a cart
is shown no rows and the total 0, and that is the view after every sequence of
cart requests, since none of them stores a cart. -/
theorem C6_view_rows_and_total (env : Env) (db : DB) (sess : Session)
    (order : List (GoString × Int)) (hperm : order.Perm (getCart sess)) :
    (cartView env db sess).1 =
      .cartPage StatusOK (cartViewLoop env db (getCart sess)).1
        (cartViewLoop env db (getCart sess)).2 ∧
    (cartView env db sess).2 = sess ∧
    (cartViewLoop env db order).1 = order.filterMap (fun e =>
      (firstProduct env db e.1).map
        (fun p => (⟨p, e.2, wrap64 (p.PriceCents * e.2)⟩ : Row))) ∧
    (cartViewLoop env db order).1.length =
      order.countP (fun e => (firstProduct env db e.1).isSome) ∧
    (∀ r ∈ (cartViewLoop env db order).1,
      r.SubtotalCents = wrap64 (r.Product.PriceCents * r.Qty) ∧
      (-9223372036854775808 ≤ r.Product.PriceCents * r.Qty →
        r.Product.PriceCents * r.Qty < 9223372036854775808 →
        r.SubtotalCents = r.Product.PriceCents * r.Qty)) ∧
    (cartViewLoop env db order).2 =
      wrap64 (((cartViewLoop env db order).1.map Row.SubtotalCents).sum) ∧
    (-9223372036854775808 ≤ ((cartViewLoop env db order).1.map Row.SubtotalCents).sum →
      ((cartViewLoop env db order).1.map Row.SubtotalCents).sum < 9223372036854775808 →
      (cartViewLoop env db order).2 =
        ((cartViewLoop env db order).1.map Row.SubtotalCents).sum) ∧
    (cartViewLoop env db order).1.Perm (cartViewLoop env db (getCart sess)).1 ∧
    (cartViewLoop env db order).2 = (cartViewLoop env db (getCart sess)).2 ∧
    (sess.cart = none → cartView env db sess = (.cartPage StatusOK [] 0, sess)) ∧
    (∀ cart : Cart, sess.cart = some cart → getCart sess = cart) ∧
    (∀ (s0 : Session) (reqs : List (DB × CartOp)), s0.cart = none →
      cartView env db (runCartOps env s0 reqs) =
        (.cartPage StatusOK [] 0, runCartOps env s0 reqs)) := by
  have hnone : ∀ s : Session, s.cart = none →
      cartView env db s = (.cartPage StatusOK [] 0, s) := by
    intro s hs
    simp only [cartView, getCart, hs]
    rfl
  have hrows : ∀ es : List (GoString × Int), (cartViewLoop env db es).1 = es.filterMap (fun e =>
      (firstProduct env db e.1).map
        (fun p => (⟨p, e.2, wrap64 (p.PriceCents * e.2)⟩ : Row))) := by
    intro es
    unfold cartViewLoop
    rw [cartViewLoop_rows_aux]
    simp
  have hp : (cartViewLoop env db order).1.Perm (cartViewLoop env db (getCart sess)).1 := by
    rw [hrows, hrows]
    exact hperm.filterMap _
  have hsub : ∀ r ∈ (cartViewLoop env db order).1,
      r.SubtotalCents = wrap64 (r.Product.PriceCents * r.Qty) := by
    intro r hr
    rw [hrows, List.mem_filterMap] at hr
    obtain ⟨e, _, he⟩ := hr
    cases hf : firstProduct env db e.1 with
    | none => simp [hf] at he
    | some p =>
      simp only [hf, Option.map_some', Option.some.injEq] at he
      rw [← he]
  refine ⟨rfl, rfl, hrows order, ?_, ?_, cartViewLoop_total env db order, ?_, hp, ?_,
    hnone sess, fun cart hc => by simp only [getCart, hc],
    fun s0 reqs h0 => by rw [runCartOps_session]; exact hnone s0 h0⟩
  · rw [hrows, length_filterMap_isSome]
    congr 1
    funext e
    cases firstProduct env db e.1 <;> rfl
  · intro r hr
    refine ⟨hsub r hr, fun h1 h2 => ?_⟩
    rw [hsub r hr, wrap64_of_range h1 h2]
  · intro h1 h2
    rw [cartViewLoop_total, wrap64_of_range h1 h2]
  · rw [cartViewLoop_total env db order, cartViewLoop_total env db (getCart sess)]
    rw [(hp.map Row.SubtotalCents).sum_eq]

/-- C6 (witness): session values with 2 of product 7, 1 of the deleted product
"9" and 3 of product 8 are shown the rows of 7 and 8 with subtotals 2500 and
29700 and the total 32200, also when visited in another order, and the session
is kept. -/
theorem C6_view_rows_and_total_witness :
    (cartView sampleEnv sampleDB
      (guestSession (some [("7".toList, 2), ("9".toList, 1), ("8".toList, 3)]))).1 =
      .cartPage StatusOK
        [⟨⟨7, 0, 0, 2, "lamp".toList, [], 1250, 4, []⟩, 2, 2500⟩,
         ⟨⟨8, 0, 0, 3, "desk".toList, [], 9900, 0, []⟩, 3, 29700⟩] 32200 ∧
    (cartViewLoop sampleEnv sampleDB [("8".toList, 3), ("7".toList, 2), ("9".toList, 1)]).2 =
      32200 ∧
    (cartView sampleEnv sampleDB
      (guestSession (some [("7".toList, 2), ("9".toList, 1), ("8".toList, 3)]))).2 =
      guestSession (some [("7".toList, 2), ("9".toList, 1), ("8".toList, 3)]) := by
  have h := C6_view_rows_and_total sampleEnv sampleDB
    (guestSession (some [("7".toList, 2), ("9".toList, 1), ("8".toList, 3)]))
    [("8".toList, 3), ("7".toList, 2), ("9".toList, 1)]
    (by
      show List.Perm [("8".toList, (3 : Int)), ("7".toList, 2), ("9".toList, 1)]
        [("7".toList, 2), ("9".toList, 1), ("8".toList, 3)]
      exact (List.Perm.swap _ _ _).trans ((List.Perm.swap _ _ _).cons _))
  refine ⟨by decide, ?_, h.2.1⟩
  rw [h.2.2.2.2.2.2.2.2.1]
  decide

/-! ## C7: role upgrade -/

/-- C7 (evaluation at the failing input): for the admin "root" the upgrade
answers with the redirect to /seller/products and stores the role "seller" in
place of "admin"; the buyer "bob" becomes a seller, the seller "sue" is left as
stored, and a second upgrade changes nothing more. -/
theorem C7_upgrade_turns_admin_into_seller :
    sellerUpgrade sampleEnv sampleDB
        (sessionOf ⟨3, [], "+100".toList, "root".toList, "#pw".toList, RoleAdmin⟩) =
      (.redirect StatusSeeOther "/seller/products".toList,
        ⟨[ ⟨1, "bob@x.io".toList, [], "bob".toList, "#pw".toList, RoleBuyer⟩,
           ⟨2, "sue@x.io".toList, [], "sue".toList, "#pw".toList, RoleSeller⟩,
           ⟨3, [], "+100".toList, "root".toList, "#pw".toList, RoleSeller⟩ ], sampleProducts⟩) ∧
    RoleSeller ≠ RoleAdmin ∧
    (sellerUpgrade sampleEnv sampleDB
        (sessionOf ⟨1, "bob@x.io".toList, [], "bob".toList, "#pw".toList, RoleBuyer⟩)).2.users =
      [ ⟨1, "bob@x.io".toList, [], "bob".toList, "#pw".toList, RoleSeller⟩,
        ⟨2, "sue@x.io".toList, [], "sue".toList, "#pw".toList, RoleSeller⟩,
        ⟨3, [], "+100".toList, "root".toList, "#pw".toList, RoleAdmin⟩ ] ∧
    (sellerUpgrade sampleEnv sampleDB
        (sessionOf ⟨2, "sue@x.io".toList, [], "sue".toList, "#pw".toList, RoleSeller⟩)).2 =
      sampleDB ∧
    (sellerUpgrade sampleEnv
        (sellerUpgrade sampleEnv sampleDB
          (sessionOf ⟨3, [], "+100".toList, "root".toList, "#pw".toList, RoleAdmin⟩)).2
        (sessionOf ⟨3, [], "+100".toList, "root".toList, "#pw".toList, RoleAdmin⟩)).2 =
      (sellerUpgrade sampleEnv sampleDB
          (sessionOf ⟨3, [], "+100".toList, "root".toList, "#pw".toList, RoleAdmin⟩)).2 := by
  refine ⟨by decide, by decide, by decide, by decide, by decide⟩

/-! ## C9: the seller gate -/

theorem ToLower_buyer (env : Env) : ToLower env RoleBuyer = "buyer".toList := by
  simp [ToLower, toLowerRune, RoleBuyer]

/-- The row `find?` returns for a column value is the first row with that
value. -/
theorem find?_column_eq_some (rows : List User) (col : User → GoString) (x : GoString)
    (u : User) :
    rows.find? (fun v => col v == x) = some u ↔
      IsFirstRowWith rows (fun v => col v = x) u := by
  rw [List.find?_eq_some]
  unfold IsFirstRowWith
  constructor
  · rintro ⟨hp, pre, post, h, hall⟩
    exact ⟨pre, post, h, by simpa using hp, fun b hb => by simpa using hall b hb⟩
  · rintro ⟨pre, post, h, hp, hall⟩
    exact ⟨by simpa using hp, pre, post, h, fun b hb => by simpa using hall b hb⟩

theorem find?_column_eq_none (rows : List User) (col : User → GoString) (x : GoString) :
    rows.find? (fun v => col v == x) = none ↔ ∀ v ∈ rows, col v ≠ x := by
  rw [List.find?_eq_none]
  constructor
  · intro h v hv; simpa using h v hv
  · intro h v hv; simpa using h v hv

theorem IsFirstRowWith.mem {α : Type} {rows : List α} {p : α → Prop} {a : α}
    (h : IsFirstRowWith rows p a) : a ∈ rows ∧ p a := by
  obtain ⟨pre, post, hrows, hp, _⟩ := h
  exact ⟨by rw [hrows]; simp, hp⟩

theorem toNat_ofNat_small_letter (n : Nat) (h1 : 65 ≤ n) (h2 : n ≤ 90) :
    (Char.ofNat (n + 32)).toNat = n + 32 := by
  interval_cases n <;> rfl

/-- The function `unicode.ToLower` gives the lower case of a rune. -/
theorem toLowerRune_eq_iff (env : Env) (c d : Char) :
    toLowerRune env c = d ↔ IsLowerCaseOf env c d := by
  unfold toLowerRune IsLowerCaseOf
  by_cases h127 : c.toNat ≤ 127
  · by_cases hcap : 65 ≤ c.toNat ∧ c.toNat ≤ 90
    · rw [if_pos h127, if_pos hcap]
      constructor
      · intro h
        left
        refine ⟨hcap.1, hcap.2, ?_⟩
        rw [← h]
        exact toNat_ofNat_small_letter _ hcap.1 hcap.2
      · rintro (⟨_, _, h⟩ | ⟨_, h, _⟩ | ⟨h, _⟩)
        · rw [← h]
          exact Char.ofNat_toNat d
        · exact absurd hcap h
        · omega
    · rw [if_pos h127, if_neg hcap]
      constructor
      · intro h
        right; left
        exact ⟨h127, hcap, h.symm⟩
      · rintro (⟨h1, h2, _⟩ | ⟨_, _, h⟩ | ⟨h, _⟩)
        · exact absurd ⟨h1, h2⟩ hcap
        · exact h.symm
        · omega
  · rw [if_neg h127]
    constructor
    · intro h
      right; right
      exact ⟨by omega, h.symm⟩
    · rintro (⟨_, h, _⟩ | ⟨h, _, _⟩ | ⟨_, h⟩)
      · omega
      · exact absurd h h127
      · exact h.symm

/-- The function `strings.ToLower` gives `w` exactly on the strings that spell
`w` when case is ignored. -/
theorem ToLower_eq_iff (env : Env) (s w : GoString) :
    ToLower env s = w ↔ SpellsIgnoringCase env s w := by
  unfold ToLower SpellsIgnoringCase
  induction s generalizing w with
  | nil =>
    constructor
    · intro h; rw [← h]; exact List.Forall₂.nil
    · intro h; cases h; rfl
  | cons c cs ih =>
    cases w with
    | nil =>
      constructor
      · intro h; cases h
      · intro h; cases h
    | cons d ds =>
      simp only [List.map_cons, List.cons.injEq, List.forall₂_cons, toLowerRune_eq_iff, ih]

theorem Session_str_eq (v : Option GoString) : Session.str v = v.getD [] := by
  cases v <;> rfl

/-- The lookup of the gated handlers finds the user the claim resolves to. -/
theorem resolveUser_eq_some (db : DB) (email username : GoString) (u : User)
    (hclaim : ¬ (email = [] ∧ username = [])) :
    resolveUser db email username = some u ↔ ClaimResolvesTo db email username u := by
  unfold resolveUser ClaimResolvesTo firstUserByEmail firstUserByUsername
  by_cases he : email = []
  · have hn : username ≠ [] := fun h => hclaim ⟨he, h⟩
    simp only [he, ne_eq, not_true_eq_false, if_false, find?_column_eq_some, false_and,
      true_and, false_or, hn, not_false_eq_true]
  · simp only [ne_eq, he, not_false_eq_true, if_true, find?_column_eq_some, true_and,
      false_and, or_false]

/-- C9: for every user table and every session, `mustSeller` passes the user
`u` on to the handler exactly when the session's identity claim (the email if
it is non-empty, otherwise the username) resolves to `u` and the role of `u`
spells "seller" or "admin" when case is ignored; the handler never runs
without a user; a session with no claim, or with a claim that resolves to no
user, is redirected to /login; a resolved user with any other role, buyer in
particular, is redirected to /seller/upgrade. -/
theorem C9_mustSeller_admits_sellers_and_admins (env : Env) (db : DB)
    (emailClaim usernameClaim : Option GoString) (cart : Option Cart) :
    (∀ u, mustSeller env db (Session.mk emailClaim usernameClaim cart) = .next (some u) ↔
      ClaimResolvesTo db (emailClaim.getD []) (usernameClaim.getD []) u ∧
      (SpellsIgnoringCase env u.Role "seller".toList ∨
        SpellsIgnoringCase env u.Role "admin".toList)) ∧
    mustSeller env db (Session.mk emailClaim usernameClaim cart) ≠ .next none ∧
    (emailClaim.getD [] = [] ∧ usernameClaim.getD [] = [] →
      mustSeller env db (Session.mk emailClaim usernameClaim cart) =
        .abort (.redirect StatusSeeOther "/login".toList)) ∧
    ((¬ ∃ u, ClaimResolvesTo db (emailClaim.getD []) (usernameClaim.getD []) u) →
      mustSeller env db (Session.mk emailClaim usernameClaim cart) =
        .abort (.redirect StatusSeeOther "/login".toList)) ∧
    (∀ u, ClaimResolvesTo db (emailClaim.getD []) (usernameClaim.getD []) u →
      ¬ SpellsIgnoringCase env u.Role "seller".toList →
      ¬ SpellsIgnoringCase env u.Role "admin".toList →
      mustSeller env db (Session.mk emailClaim usernameClaim cart) =
        .abort (.redirect StatusSeeOther "/seller/upgrade".toList)) ∧
    (∀ u, ClaimResolvesTo db (emailClaim.getD []) (usernameClaim.getD []) u →
      u.Role = RoleBuyer →
      mustSeller env db (Session.mk emailClaim usernameClaim cart) =
        .abort (.redirect StatusSeeOther "/seller/upgrade".toList)) := by
  have hnoclaim : ∀ u, (emailClaim.getD [] = [] ∧ usernameClaim.getD [] = []) →
      ¬ ClaimResolvesTo db (emailClaim.getD []) (usernameClaim.getD []) u := by
    rintro u ⟨he, hn⟩ (⟨h, _⟩ | ⟨_, h, _⟩)
    · exact h he
    · exact h hn
  have hbuyer : ∀ u : User, u.Role = RoleBuyer →
      ¬ (ToLower env u.Role ≠ "seller".toList ∧ ToLower env u.Role ≠ "admin".toList) →
      False := by
    intro u hu hn
    apply hn
    rw [hu, ToLower_buyer]
    constructor <;> decide
  by_cases hc : emailClaim.getD [] = [] ∧ usernameClaim.getD [] = []
  · have hm : mustSeller env db (Session.mk emailClaim usernameClaim cart) =
        .abort (.redirect StatusSeeOther "/login".toList) := by
      simp only [mustSeller, Session_str_eq, hc, and_self, if_true]
    refine ⟨fun u => ⟨?_, ?_⟩, ?_, fun _ => hm, fun _ => hm, ?_, ?_⟩
    · intro h; rw [hm] at h; cases h
    · rintro ⟨h, _⟩; exact absurd h (hnoclaim u hc)
    · rw [hm]; intro h; cases h
    · intro u h; exact absurd h (hnoclaim u hc)
    · intro u h; exact absurd h (hnoclaim u hc)
  · have hres := fun u => resolveUser_eq_some db (emailClaim.getD []) (usernameClaim.getD []) u hc
    cases hr : resolveUser db (emailClaim.getD []) (usernameClaim.getD []) with
    | none =>
      have hm : mustSeller env db (Session.mk emailClaim usernameClaim cart) =
          .abort (.redirect StatusSeeOther "/login".toList) := by
        simp only [mustSeller, Session_str_eq, hc, if_false, hr]
      have hnone : ∀ u, ¬ ClaimResolvesTo db (emailClaim.getD []) (usernameClaim.getD []) u := by
        intro u h
        rw [← hres u, hr] at h
        cases h
      refine ⟨fun u => ⟨?_, ?_⟩, ?_, fun h => absurd h hc, fun _ => hm, ?_, ?_⟩
      · intro h; rw [hm] at h; cases h
      · rintro ⟨h, _⟩; exact absurd h (hnone u)
      · rw [hm]; intro h; cases h
      · intro u h; exact absurd h (hnone u)
      · intro u h; exact absurd h (hnone u)
    | some v =>
      have huniq : ∀ u, ClaimResolvesTo db (emailClaim.getD []) (usernameClaim.getD []) u →
          u = v := by
        intro u h
        rw [← hres u, hr] at h
        exact (Option.some.inj h).symm
      have hv : ClaimResolvesTo db (emailClaim.getD []) (usernameClaim.getD []) v :=
        (hres v).1 hr
      by_cases hrole : ToLower env v.Role ≠ "seller".toList ∧
          ToLower env v.Role ≠ "admin".toList
      · have hm : mustSeller env db (Session.mk emailClaim usernameClaim cart) =
            .abort (.redirect StatusSeeOther "/seller/upgrade".toList) := by
          simp only [mustSeller, Session_str_eq, hc, if_false, hr]
          exact if_pos hrole
        refine ⟨fun u => ⟨?_, ?_⟩, ?_, fun h => absurd h hc, ?_, fun _ _ _ _ => hm,
          fun _ _ _ => hm⟩
        · intro h; rw [hm] at h; cases h
        · rintro ⟨h, hs⟩
          rw [huniq u h, ← ToLower_eq_iff, ← ToLower_eq_iff] at hs
          rcases hs with hs | hs
          · exact absurd hs hrole.1
          · exact absurd hs hrole.2
        · rw [hm]; intro h; cases h
        · intro h; exact absurd ⟨v, hv⟩ h
      · have hm : mustSeller env db (Session.mk emailClaim usernameClaim cart) =
            .next (some v) := by
          simp only [mustSeller, Session_str_eq, hc, if_false, hr]
          exact if_neg hrole
        have hspell : SpellsIgnoringCase env v.Role "seller".toList ∨
            SpellsIgnoringCase env v.Role "admin".toList := by
          rw [← ToLower_eq_iff, ← ToLower_eq_iff]
          by_contra hn
          push_neg at hn
          exact hrole hn
        refine ⟨fun u => ⟨?_, ?_⟩, ?_, fun h => absurd h hc, ?_, ?_, ?_⟩
        · intro h
          rw [hm] at h
          have : v = u := by
            simp only [Gate.next.injEq, Option.some.injEq] at h
            exact h
          rw [← this]
          exact ⟨hv, hspell⟩
        · rintro ⟨h, _⟩
          rw [huniq u h]
          exact hm
        · rw [hm]; intro h; cases h
        · intro h; exact absurd ⟨v, hv⟩ h
        · intro u h h1 h2
          rw [huniq u h] at h1 h2
          rcases hspell with hs | hs
          · exact absurd hs h1
          · exact absurd hs h2
        · intro u h hb
          rw [huniq u h] at hb
          exact absurd hrole (fun hn => hbuyer v hb hn)

/-- C9 (witness): with ann stored as "SELLER" and ben as "Admin", a session
claiming ann's email and cy's username runs the handler with ann, and an
empty email with ben's username runs it with ben; cy (buyer) and the session
that claims cy's email with ann's username are sent to /seller/upgrade; no
claim at all, and an unknown email beside ann's username, are sent to
/login. -/
theorem C9_mustSeller_admits_sellers_and_admins_witness :
    mustSeller sampleEnv gateDB ⟨some "ann@x.io".toList, some "cy".toList, none⟩ =
      .next (some ⟨1, "ann@x.io".toList, "+111".toList, "ann".toList, "#pw".toList,
        "SELLER".toList⟩) ∧
    mustSeller sampleEnv gateDB ⟨some [], some "ben".toList, none⟩ =
      .next (some ⟨2, "ben@x.io".toList, "222".toList, "ben".toList, "#pw".toList,
        "Admin".toList⟩) ∧
    mustSeller sampleEnv gateDB ⟨none, some "cy".toList, none⟩ =
      .abort (.redirect StatusSeeOther "/seller/upgrade".toList) ∧
    mustSeller sampleEnv gateDB ⟨some "cy@x.io".toList, some "ann".toList, none⟩ =
      .abort (.redirect StatusSeeOther "/seller/upgrade".toList) ∧
    mustSeller sampleEnv gateDB ⟨none, none, none⟩ =
      .abort (.redirect StatusSeeOther "/login".toList) ∧
    mustSeller sampleEnv gateDB ⟨some "gone@x.io".toList, some "ann".toList, none⟩ =
      .abort (.redirect StatusSeeOther "/login".toList) := by
  have hann := C9_mustSeller_admits_sellers_and_admins sampleEnv gateDB
    (some "ann@x.io".toList) (some "cy".toList) none
  have hben := C9_mustSeller_admits_sellers_and_admins sampleEnv gateDB
    (some []) (some "ben".toList) none
  have hcy := C9_mustSeller_admits_sellers_and_admins sampleEnv gateDB
    none (some "cy".toList) none
  have hcy2 := C9_mustSeller_admits_sellers_and_admins sampleEnv gateDB
    (some "cy@x.io".toList) (some "ann".toList) none
  have hguest := C9_mustSeller_admits_sellers_and_admins sampleEnv gateDB none none none
  have hgone := C9_mustSeller_admits_sellers_and_admins sampleEnv gateDB
    (some "gone@x.io".toList) (some "ann".toList) none
  refine ⟨?_, ?_, ?_, ?_, hguest.2.2.1 (by decide), ?_⟩
  · refine (hann.1 _).2 ⟨Or.inl ⟨by decide, [], _, rfl, by decide, by intro b hb; cases hb⟩,
      Or.inl ((ToLower_eq_iff _ _ _).1 (by decide))⟩
  · refine (hben.1 _).2 ⟨Or.inr ⟨by decide, by decide,
        [⟨1, "ann@x.io".toList, "+111".toList, "ann".toList, "#pw".toList, "SELLER".toList⟩],
        _, rfl, by decide, by decide⟩,
      Or.inr ((ToLower_eq_iff _ _ _).1 (by decide))⟩
  · exact hcy.2.2.2.2.2
      ⟨3, "cy@x.io".toList, "+333".toList, "cy".toList, "#pw".toList, "buyer".toList⟩
      (Or.inr ⟨by decide, by decide,
        [⟨1, "ann@x.io".toList, "+111".toList, "ann".toList, "#pw".toList, "SELLER".toList⟩,
         ⟨2, "ben@x.io".toList, "222".toList, "ben".toList, "#pw".toList, "Admin".toList⟩],
        _, rfl, by decide, by decide⟩) rfl
  · exact hcy2.2.2.2.2.1
      ⟨3, "cy@x.io".toList, "+333".toList, "cy".toList, "#pw".toList, "buyer".toList⟩
      (Or.inl ⟨by decide,
        [⟨1, "ann@x.io".toList, "+111".toList, "ann".toList, "#pw".toList, "SELLER".toList⟩,
         ⟨2, "ben@x.io".toList, "222".toList, "ben".toList, "#pw".toList, "Admin".toList⟩],
        _, rfl, by decide, by decide⟩)
      (fun h => absurd ((ToLower_eq_iff _ _ _).2 h) (by decide))
      (fun h => absurd ((ToLower_eq_iff _ _ _).2 h) (by decide))
  · apply hgone.2.2.2.1
    rintro ⟨u, h⟩
    have hfound := (resolveUser_eq_some gateDB _ _ u (by decide)).2 h
    have hnone : resolveUser gateDB ((some "gone@x.io".toList).getD [])
        ((some "ann".toList).getD []) = none := by decide
    rw [hnone] at hfound
    cases hfound
/-! ## C10: registration -/

theorem countUsers_pos (db : DB) (p : User → Bool) :
    countUsers db p > 0 ↔ ∃ u ∈ db.users, p u = true := by
  unfold countUsers
  exact List.countP_pos_iff

/-- C10: with non-empty trimmed contact and username and a non-empty password,
registration answers "Username taken" when a row has the username; otherwise
"Email already registered" when the contact contains "@" and a row has it as
email; otherwise "Phone already registered" when the contact has no "@" and a
row has it as phone; each time with status 400 on `register.tmpl`, with the
database and the session as they were; and the three messages differ. -/
theorem C10_register_rejects_duplicates (env : Env) (db : DB) (sess : Session)
    (contactForm usernameForm pw : GoString) (hc : TrimSpace contactForm ≠ [])
    (hu : TrimSpace usernameForm ≠ []) (hpw : pw ≠ []) :
    ((∃ u ∈ db.users, u.Username = TrimSpace usernameForm) →
      register env db sess contactForm usernameForm pw =
        (.html StatusBadRequest "register.tmpl".toList (some "Username taken".toList),
          db, sess)) ∧
    (¬ (∃ u ∈ db.users, u.Username = TrimSpace usernameForm) →
      Contains (TrimSpace contactForm) '@' = true →
      (∃ u ∈ db.users, u.Email = TrimSpace contactForm) →
      register env db sess contactForm usernameForm pw =
        (.html StatusBadRequest "register.tmpl".toList
          (some "Email already registered".toList), db, sess)) ∧
    (¬ (∃ u ∈ db.users, u.Username = TrimSpace usernameForm) →
      Contains (TrimSpace contactForm) '@' = false →
      (∃ u ∈ db.users, u.Phone = TrimSpace contactForm) →
      register env db sess contactForm usernameForm pw =
        (.html StatusBadRequest "register.tmpl".toList
          (some "Phone already registered".toList), db, sess)) ∧
    "Username taken".toList ≠ "Email already registered".toList ∧
    "Username taken".toList ≠ "Phone already registered".toList ∧
    "Email already registered".toList ≠ "Phone already registered".toList := by
  have hfill : ¬ (TrimSpace contactForm = [] ∨ TrimSpace usernameForm = [] ∨ pw = []) := by
    rintro (h | h | h)
    · exact hc h
    · exact hu h
    · exact hpw h
  refine ⟨?_, ?_, ?_, by decide, by decide, by decide⟩
  · rintro ⟨u, hmem, hname⟩
    have hcnt : countUsers db (fun u => u.Username == TrimSpace usernameForm) > 0 :=
      (countUsers_pos db _).2 ⟨u, hmem, by simpa using hname⟩
    simp only [register, hfill, if_false, hcnt, if_true]
  · rintro hno hat ⟨u, hmem, hmail⟩
    have hcnt0 : ¬ (countUsers db (fun u => u.Username == TrimSpace usernameForm) > 0) := by
      rw [countUsers_pos]
      rintro ⟨v, hv, hvn⟩
      exact hno ⟨v, hv, by simpa using hvn⟩
    have hcnt : countUsers db (fun u => u.Email == TrimSpace contactForm) > 0 :=
      (countUsers_pos db _).2 ⟨u, hmem, by simpa using hmail⟩
    simp only [register, hu, hpw, or_self, if_false, hcnt0, hat, if_true, ne_eq, hc,
      not_false_eq_true, hcnt, and_self]
  · rintro hno hat ⟨u, hmem, hphone⟩
    have hcnt0 : ¬ (countUsers db (fun u => u.Username == TrimSpace usernameForm) > 0) := by
      rw [countUsers_pos]
      rintro ⟨v, hv, hvn⟩
      exact hno ⟨v, hv, by simpa using hvn⟩
    have hcnt : countUsers db (fun u => u.Phone == TrimSpace contactForm) > 0 :=
      (countUsers_pos db _).2 ⟨u, hmem, by simpa using hphone⟩
    simp only [register, hu, hpw, or_self, if_false, hcnt0, hat, Bool.false_eq_true, ne_eq,
      not_true_eq_false, false_and, hc, not_false_eq_true, hcnt, and_self, if_true]

/-- C10 (witness): against the sample users, a taken username, a registered
email and a registered phone are each refused with their message and leave the
table as it was, while a fresh registration adds a fourth row. -/
theorem C10_register_rejects_duplicates_witness :
    register sampleEnv sampleDB (guestSession none) "new@x.io".toList " bob ".toList
        "pw".toList =
      (.html StatusBadRequest "register.tmpl".toList (some "Username taken".toList),
        sampleDB, guestSession none) ∧
    register sampleEnv sampleDB (guestSession none) "sue@x.io".toList "ann".toList
        "pw".toList =
      (.html StatusBadRequest "register.tmpl".toList
        (some "Email already registered".toList), sampleDB, guestSession none) ∧
    register sampleEnv sampleDB (guestSession none) "+100".toList "ann".toList
        "pw".toList =
      (.html StatusBadRequest "register.tmpl".toList
        (some "Phone already registered".toList), sampleDB, guestSession none) ∧
    (register sampleEnv sampleDB (guestSession none) "ann@x.io".toList "ann".toList
        "pw".toList).2.1.users.length = 4 := by
  have h1 := C10_register_rejects_duplicates sampleEnv sampleDB (guestSession none)
    "new@x.io".toList " bob ".toList "pw".toList (by decide) (by decide) (by decide)
  have h2 := C10_register_rejects_duplicates sampleEnv sampleDB (guestSession none)
    "sue@x.io".toList "ann".toList "pw".toList (by decide) (by decide) (by decide)
  have h3 := C10_register_rejects_duplicates sampleEnv sampleDB (guestSession none)
    "+100".toList "ann".toList "pw".toList (by decide) (by decide) (by decide)
  refine ⟨h1.1 ⟨⟨1, "bob@x.io".toList, [], "bob".toList, "#pw".toList, RoleBuyer⟩,
      by decide, by decide⟩,
    h2.2.1 (by decide) (by decide)
      ⟨⟨2, "sue@x.io".toList, [], "sue".toList, "#pw".toList, RoleSeller⟩, by decide, by decide⟩,
    h3.2.2.1 (by decide) (by decide)
      ⟨⟨3, [], "+100".toList, "root".toList, "#pw".toList, RoleAdmin⟩, by decide, by decide⟩,
    by decide⟩

/-! ## C8: ownership of products -/

theorem mustSeller_next_resolve {env : Env} {db : DB} {sess : Session} {u : User}
    (h : mustSeller env db sess = .next (some u)) :
    resolveUser db (Session.str sess.user_email) (Session.str sess.user_username) = some u := by
  unfold mustSeller at h
  simp only at h
  split at h
  · cases h
  · split at h
    · cases h
    · rename_i v hv
      split at h
      · cases h
      · simp only [Gate.next.injEq, Option.some.injEq] at h
        rw [hv, h]

theorem ownerOf_of_gate {env : Env} {db : DB} {sess : Session} {u : User}
    (h : mustSeller env db sess = .next (some u)) : ownerOf db sess = u := by
  simp only [ownerOf, mustSeller_next_resolve h]

theorem firstProduct_some {env : Env} {db : DB} {id : GoString} {p : Product}
    (h : firstProduct env db id = some p) : p ∈ db.products ∧ env.idOfText id = some p.ID := by
  unfold firstProduct at h
  split at h
  · cases h
  · rename_i n hn
    have hm := List.mem_of_find?_eq_some h
    have hp := List.find?_some h
    simp only [beq_iff_eq] at hp
    exact ⟨hm, by rw [hn, hp]⟩

theorem filter_other_sellers_saveProduct (l : List Product) (item : Product) (now s : Nat)
    (hrows : ∀ x ∈ l, x.ID = item.ID → x.SellerID = s) (hitem : item.SellerID = s) :
    (saveProduct l item now).filter (fun q => q.SellerID != s) =
      l.filter (fun q => q.SellerID != s) := by
  subst hitem
  unfold saveProduct
  induction l with
  | nil => rfl
  | cons x xs ih =>
    have ih' := ih (fun y hy => hrows y (by simp [hy]))
    by_cases hx : x.ID = item.ID
    · have hs := hrows x (by simp) hx
      simp only [List.map_cons, hx, beq_self_eq_true, if_true, List.filter_cons, hs,
        bne_self_eq_false, Bool.false_eq_true, if_false]
      exact ih'
    · have hb : (x.ID == item.ID) = false := by simpa using hx
      simp only [List.map_cons, hb, Bool.false_eq_true, if_false, List.filter_cons]
      rw [ih']

theorem filter_other_sellers_delete (l : List Product) (n s : Nat) :
    (l.filter (fun p => !(p.ID == n && p.SellerID == s))).filter (fun q => q.SellerID != s) =
      l.filter (fun q => q.SellerID != s) := by
  rw [List.filter_filter]
  congr 1
  funext q
  by_cases h : q.SellerID = s <;> simp [h]

/-- What `POST /seller/products/:id` does to the database once the gate has
passed `u`: nothing, or one `Save` of a row that the addressed product, owned
by `u`, turned into. -/
theorem sellerProductUpdate_db (env : Env) (db : DB) (sess : Session) (u : User)
    (id titleForm descForm priceForm stockForm : GoString) (image : Except GoString GoString)
    (now : Nat) (hgate : mustSeller env db sess = .next (some u)) :
    (sellerProductUpdate env db sess id titleForm descForm priceForm stockForm image now).2 = db ∨
    ∃ item item' : Product, firstProduct env db id = some item ∧ item.SellerID = u.ID ∧
      item'.ID = item.ID ∧ item'.SellerID = item.SellerID ∧
      (sellerProductUpdate env db sess id titleForm descForm priceForm stockForm image now).2 =
        { db with products := saveProduct db.products item' now } := by
  unfold sellerProductUpdate
  simp only [hgate, ownerOf_of_gate hgate]
  cases hf : firstProduct env db id with
  | none => exact Or.inl rfl
  | some item =>
    simp only
    by_cases hown : item.SellerID ≠ u.ID
    · rw [if_pos hown]; exact Or.inl rfl
    · rw [if_neg hown]
      have hown' : item.SellerID = u.ID := by simpa using hown
      split
      · exact Or.inl rfl
      · cases image with
        | error e => exact Or.inl rfl
        | ok imgPath =>
          right
          by_cases himg : imgPath ≠ []
          · exact ⟨item, _, rfl, hown', by simp only [if_pos himg], by simp only [if_pos himg],
              rfl⟩
          · exact ⟨item, _, rfl, hown', by simp only [if_neg himg], by simp only [if_neg himg],
              rfl⟩

/-- C8: for a user `u` passed by the seller gate (the column `id` being the
primary key of `products`), if the addressed product exists and its SellerID
differs from `u.ID`, the edit form, the update and the delete answer with
status 403 as plain text and leave the database as it was; the edit form never
writes; and update and delete leave the users and every product row of another
seller as they were, changing the table only when a product with the addressed
id has SellerID equal to `u.ID`. -/
theorem C8_edit_update_delete_require_ownership (env : Env) (db : DB) (sess : Session)
    (u : User) (id titleForm descForm priceForm stockForm dbError : GoString)
    (image : Except GoString GoString) (now : Nat)
    (hgate : mustSeller env db sess = .next (some u))
    (hpk : ∀ a ∈ db.products, ∀ b ∈ db.products, a.ID = b.ID → a = b) :
    (∀ p, firstProduct env db id = some p → p.SellerID ≠ u.ID →
      sellerProductEdit env db sess id = (.text StatusForbidden "Forbidden".toList, db) ∧
      sellerProductUpdate env db sess id titleForm descForm priceForm stockForm image now =
        (.text StatusForbidden "Forbidden".toList, db) ∧
      sellerProductDelete env db sess id dbError =
        (.text StatusForbidden "Not your product or not found".toList, db)) ∧
    StatusForbidden = 403 ∧
    (sellerProductEdit env db sess id).2 = db ∧
    ((sellerProductUpdate env db sess id titleForm descForm priceForm stockForm image now).2
        ≠ db → ∃ p, firstProduct env db id = some p ∧ p.SellerID = u.ID) ∧
    ((sellerProductDelete env db sess id dbError).2 ≠ db →
      ∃ p ∈ db.products, env.idOfText id = some p.ID ∧ p.SellerID = u.ID) ∧
    (sellerProductUpdate env db sess id titleForm descForm priceForm stockForm image now).2.users
      = db.users ∧
    (sellerProductDelete env db sess id dbError).2.users = db.users ∧
    (sellerProductUpdate env db sess id titleForm descForm priceForm stockForm image
        now).2.products.filter (fun q => q.SellerID != u.ID) =
      db.products.filter (fun q => q.SellerID != u.ID) ∧
    (sellerProductDelete env db sess id dbError).2.products.filter
        (fun q => q.SellerID != u.ID) =
      db.products.filter (fun q => q.SellerID != u.ID) := by
  have hown := ownerOf_of_gate hgate
  have hupd := sellerProductUpdate_db env db sess u id titleForm descForm priceForm stockForm
    image now hgate
  -- the delete handler, by the outcome of its statement
  have hdel : (sellerProductDelete env db sess id dbError).2 = db ∨
      ∃ n, env.idOfText id = some n ∧
        0 < db.products.countP (fun p => p.ID == n && p.SellerID == u.ID) ∧
        (sellerProductDelete env db sess id dbError).2 =
          { db with products :=
              db.products.filter (fun p => !(p.ID == n && p.SellerID == u.ID)) } := by
    unfold sellerProductDelete deleteProduct
    simp only [hgate, hown]
    cases hn : env.idOfText id with
    | none => exact Or.inl rfl
    | some n =>
      simp only
      by_cases hz : db.products.countP (fun p => p.ID == n && p.SellerID == u.ID) = 0
      · rw [if_pos hz]; exact Or.inl rfl
      · rw [if_neg hz]; exact Or.inr ⟨n, rfl, Nat.pos_of_ne_zero hz, rfl⟩
  refine ⟨?_, rfl, ?_, ?_, ?_, ?_, ?_, ?_, ?_⟩
  · intro p hp hne
    obtain ⟨hmem, hid⟩ := firstProduct_some hp
    refine ⟨?_, ?_, ?_⟩
    · simp only [sellerProductEdit, hgate, hp, hown, hne, ne_eq, not_false_eq_true, if_true]
    · simp only [sellerProductUpdate, hgate, hp, hown, hne, ne_eq, not_false_eq_true, if_true]
    · have hz : db.products.countP (fun q => q.ID == p.ID && q.SellerID == u.ID) = 0 := by
        rw [List.countP_eq_zero]
        intro q hq hcond
        simp only [Bool.and_eq_true, beq_iff_eq] at hcond
        have := hpk q hq p hmem hcond.1
        rw [this] at hcond
        exact hne hcond.2
      simp only [sellerProductDelete, hgate, hown, deleteProduct, hid, hz, if_true]
  · unfold sellerProductEdit
    simp only [hgate]
    split
    · rfl
    · split <;> rfl
  · intro hch
    rcases hupd with h | ⟨item, item', hf, hs, _, _, _⟩
    · exact absurd h hch
    · exact ⟨item, hf, hs⟩
  · intro hch
    rcases hdel with h | ⟨n, hn, hpos, _⟩
    · exact absurd h hch
    · obtain ⟨p, hp, hcond⟩ := List.countP_pos_iff.1 hpos
      simp only [Bool.and_eq_true, beq_iff_eq] at hcond
      exact ⟨p, hp, by rw [hn, hcond.1], hcond.2⟩
  · rcases hupd with h | ⟨_, _, _, _, _, _, h⟩ <;> rw [h]
  · rcases hdel with h | ⟨_, _, _, h⟩ <;> rw [h]
  · rcases hupd with h | ⟨item, item', hf, hs, hid', hs', h⟩
    · rw [h]
    · rw [h]
      obtain ⟨hmem, _⟩ := firstProduct_some hf
      apply filter_other_sellers_saveProduct
      · intro x hx hxid
        have := hpk x hx item hmem (by rw [hxid, hid'])
        rw [this, hs]
      · rw [hs', hs]
  · rcases hdel with h | ⟨n, _, _, h⟩
    · rw [h]
    · rw [h]
      exact filter_other_sellers_delete _ _ _

/-- C8 (witness): the seller "sue" (id 2) addressing product 8 of seller 3 gets
403 from the edit form, the update and the delete, and the database stays as it
was; on her own product 7 the update is redirected and stores the new price,
and the delete removes the row. -/
theorem C8_edit_update_delete_require_ownership_witness :
    sellerProductEdit sampleEnv sampleDB
        (sessionOf ⟨2, "sue@x.io".toList, [], "sue".toList, "#pw".toList, RoleSeller⟩)
        "8".toList = (.text 403 "Forbidden".toList, sampleDB) ∧
    sellerProductUpdate sampleEnv sampleDB
        (sessionOf ⟨2, "sue@x.io".toList, [], "sue".toList, "#pw".toList, RoleSeller⟩)
        "8".toList "desk".toList [] "1.00".toList "5".toList (.ok []) 9 =
      (.text 403 "Forbidden".toList, sampleDB) ∧
    sellerProductDelete sampleEnv sampleDB
        (sessionOf ⟨2, "sue@x.io".toList, [], "sue".toList, "#pw".toList, RoleSeller⟩)
        "8".toList [] = (.text 403 "Not your product or not found".toList, sampleDB) ∧
    sellerProductUpdate sampleEnv sampleDB
        (sessionOf ⟨2, "sue@x.io".toList, [], "sue".toList, "#pw".toList, RoleSeller⟩)
        "7".toList "lamp".toList [] "13,00".toList "5".toList (.ok []) 9 =
      (.redirect 303 "/seller/products".toList,
        ⟨sampleUsers, [ ⟨7, 0, 9, 2, "lamp".toList, [], 1300, 5, []⟩,
          ⟨8, 0, 0, 3, "desk".toList, [], 9900, 0, []⟩ ]⟩) ∧
    (sellerProductDelete sampleEnv sampleDB
        (sessionOf ⟨2, "sue@x.io".toList, [], "sue".toList, "#pw".toList, RoleSeller⟩)
        "7".toList []).2.products = [ ⟨8, 0, 0, 3, "desk".toList, [], 9900, 0, []⟩ ] := by
  have h := C8_edit_update_delete_require_ownership sampleEnv sampleDB
    (sessionOf ⟨2, "sue@x.io".toList, [], "sue".toList, "#pw".toList, RoleSeller⟩)
    ⟨2, "sue@x.io".toList, [], "sue".toList, "#pw".toList, RoleSeller⟩
    "8".toList "desk".toList [] "1.00".toList "5".toList [] (.ok []) 9 (by decide) (by decide)
  have h8 := h.1 ⟨8, 0, 0, 3, "desk".toList, [], 9900, 0, []⟩ (by decide) (by decide)
  exact ⟨h8.1, h8.2.1, h8.2.2, by decide, by decide⟩

/-! ## C11: login -/

theorem Contains_iff_mem (s : GoString) (r : Char) : Contains s r = true ↔ r ∈ s := by
  unfold Contains
  rw [List.any_eq_true]
  constructor
  · rintro ⟨c, hc, h⟩
    have : c = r := by simpa using h
    exact this ▸ hc
  · intro h
    exact ⟨r, h, by simp⟩

theorem HasPrefix_iff_head (s : GoString) (r : Char) :
    HasPrefix s r = true ↔ s.head? = some r := by
  cases s with
  | nil => simp [HasPrefix]
  | cons c cs => simp [HasPrefix]

theorem indexFuncFrom_eq_neg_one (f : Char → Bool) (s : GoString) (i : Nat) :
    indexFuncFrom f s i = -1 ↔ ∀ c ∈ s, f c = false := by
  induction s generalizing i with
  | nil => simp [indexFuncFrom]
  | cons c cs ih =>
    cases hf : f c with
    | true =>
      simp only [indexFuncFrom, hf, if_true, List.mem_cons, forall_eq_or_imp,
        Bool.true_eq_false, false_and, iff_false]
      omega
    | false =>
      simp only [indexFuncFrom, hf, Bool.false_eq_true, if_false, List.mem_cons,
        forall_eq_or_imp, true_and]
      exact ih _

theorem not_digit_rune_iff (c : Char) :
    (decide (c.toNat < 48) || decide (c.toNat > 57)) = false ↔ isDigit c = true := by
  simp only [isDigit, Bool.or_eq_false_iff, decide_eq_false_iff_not, Bool.and_eq_true,
    decide_eq_true_eq]
  omega

theorem IndexFunc_digits (s : GoString) :
    (IndexFunc s (fun r => decide (r.toNat < 48) || decide (r.toNat > 57)) == -1) = true ↔
      ∀ c ∈ s, isDigit c = true := by
  rw [beq_iff_eq]
  unfold IndexFunc
  rw [indexFuncFrom_eq_neg_one]
  constructor
  · intro h c hc
    exact (not_digit_rune_iff c).1 (h c hc)
  · intro h c hc
    exact (not_digit_rune_iff c).2 (h c hc)

/-- The three branches of the login lookup, in the words of the conditions. -/
theorem loginLookup_cases (ident : GoString) :
    ('@' ∈ ident → loginLookup ident = .email) ∧
    ('@' ∉ ident → (ident.head? = some '+' ∨ ∀ c ∈ ident, isDigit c = true) →
      loginLookup ident = .phone) ∧
    ('@' ∉ ident → ident.head? ≠ some '+' → (∃ c ∈ ident, isDigit c = false) →
      loginLookup ident = .username) := by
  refine ⟨?_, ?_, ?_⟩
  · intro h
    simp only [loginLookup, (Contains_iff_mem ident '@').2 h, if_true]
  · intro h hor
    have hc : Contains ident '@' = false := by
      rw [← Bool.not_eq_true, Contains_iff_mem]; exact h
    have hb : (HasPrefix ident '+' ||
        IndexFunc ident (fun r => decide (r.toNat < 48) || decide (r.toNat > 57)) == -1)
        = true := by
      rw [Bool.or_eq_true]
      rcases hor with h1 | h2
      · exact Or.inl ((HasPrefix_iff_head ident '+').2 h1)
      · exact Or.inr ((IndexFunc_digits ident).2 h2)
    simp only [loginLookup, hc, Bool.false_eq_true, if_false, hb, if_true]
  · rintro h hplus ⟨c, hc, hnd⟩
    have hcn : Contains ident '@' = false := by
      rw [← Bool.not_eq_true, Contains_iff_mem]; exact h
    have hb : (HasPrefix ident '+' ||
        IndexFunc ident (fun r => decide (r.toNat < 48) || decide (r.toNat > 57)) == -1)
        = false := by
      rw [Bool.or_eq_false_iff]
      constructor
      · rw [← Bool.not_eq_true, HasPrefix_iff_head]; exact hplus
      · rw [← Bool.not_eq_true, IndexFunc_digits]
        intro hall
        rw [hall c hc] at hnd
        cases hnd
    simp only [loginLookup, hcn, Bool.false_eq_true, if_false, hb]

/-- The row the login handler's `First` returns, by branch. -/
theorem loginFirst_by_branch (db : DB) (ident : GoString) :
    ('@' ∈ ident → loginFirst db ident = db.users.find? (fun v => v.Email == ident)) ∧
    ('@' ∉ ident → (ident.head? = some '+' ∨ ∀ c ∈ ident, isDigit c = true) →
      loginFirst db ident = db.users.find? (fun v => v.Phone == ident)) ∧
    ('@' ∉ ident → ident.head? ≠ some '+' → ¬ (∀ c ∈ ident, isDigit c = true) →
      loginFirst db ident = db.users.find? (fun v => v.Username == ident)) := by
  have hcases := loginLookup_cases ident
  refine ⟨?_, ?_, ?_⟩
  · intro h
    simp only [loginFirst, hcases.1 h, firstUserByEmail]
  · intro h hor
    simp only [loginFirst, hcases.2.1 h hor, firstUserByPhone]
  · intro h hplus hnd
    have hex : ∃ c ∈ ident, isDigit c = false := by
      by_contra hn
      apply hnd
      intro c hc
      by_contra hcd
      exact hn ⟨c, hc, by simpa using hcd⟩
    simp only [loginFirst, hcases.2.2 h hplus hex, firstUserByUsername]

/-- The three outcomes of the login handler when its lookup is on the column
`col`. -/
theorem login_by_column (env : Env) (db : DB) (sess : Session) (usernameForm pw : GoString)
    (col : User → GoString) (hid : TrimSpace usernameForm ≠ []) (hpw : pw ≠ [])
    (hfirst : loginFirst db (TrimSpace usernameForm) =
      db.users.find? (fun v => col v == TrimSpace usernameForm)) :
    ((∀ v ∈ db.users, col v ≠ TrimSpace usernameForm) →
      login env db sess usernameForm pw =
        (.html StatusUnauthorized "login.tmpl".toList (some "User not found".toList), sess)) ∧
    (∀ u, IsFirstRowWith db.users (fun v => col v = TrimSpace usernameForm) u →
      (env.CheckPassword u.PasswordHash pw = false →
        login env db sess usernameForm pw =
          (.html StatusUnauthorized "login.tmpl".toList (some "Wrong password".toList),
            sess)) ∧
      (env.CheckPassword u.PasswordHash pw = true → sess.cart = none →
        login env db sess usernameForm pw =
          (.redirect StatusSeeOther "/".toList,
            { sess with user_email := some u.Email, user_username := some u.Username }))) := by
  have hfill : ¬ (TrimSpace usernameForm = [] ∨ pw = []) := by
    rintro (h | h)
    · exact hid h
    · exact hpw h
  constructor
  · intro hnone
    have h0 : loginFirst db (TrimSpace usernameForm) = none := by
      rw [hfirst]
      exact (find?_column_eq_none _ _ _).2 hnone
    simp only [login, hfill, if_false, h0]
  · intro u hu
    have h1 : loginFirst db (TrimSpace usernameForm) = some u := by
      rw [hfirst]
      exact (find?_column_eq_some _ _ _ _).2 hu
    constructor
    · intro hbad
      simp only [login, hfill, if_false, h1, hbad, Bool.not_false, if_true]
    · intro hgood hcart
      simp only [login, hfill, if_false, h1, hgood, Bool.not_true, Bool.false_eq_true]
      rw [Save_without_cart sess _ (by exact hcart)]

/-- C11: for an identifier that is non-empty after trimming (and a non-empty
password) the login handler runs exactly one lookup: on the email column when
the identifier contains "@"; otherwise on the phone column when it starts with
"+" or is made of the digits 0-9 only; otherwise on the username column. In
each branch, when no row has the identifier in that column the answer is
"User not found"; for the first row that has it, a failed password check gives
"Wrong password"; both come with status 401 on `login.tmpl` and the session as
it was; a passed check redirects to / with the email and username of that row
as the session's claims; and the two messages differ. -/
theorem C11_login_branches_and_failures (env : Env) (db : DB) (sess : Session)
    (usernameForm pw : GoString) (hid : TrimSpace usernameForm ≠ []) (hpw : pw ≠ []) :
    ('@' ∈ TrimSpace usernameForm →
      ((∀ v ∈ db.users, v.Email ≠ TrimSpace usernameForm) →
        login env db sess usernameForm pw =
          (.html StatusUnauthorized "login.tmpl".toList (some "User not found".toList),
            sess)) ∧
      (∀ u, IsFirstRowWith db.users (fun v => v.Email = TrimSpace usernameForm) u →
        (env.CheckPassword u.PasswordHash pw = false →
          login env db sess usernameForm pw =
            (.html StatusUnauthorized "login.tmpl".toList (some "Wrong password".toList),
              sess)) ∧
        (env.CheckPassword u.PasswordHash pw = true → sess.cart = none →
          login env db sess usernameForm pw =
            (.redirect StatusSeeOther "/".toList,
              { sess with user_email := some u.Email,
                          user_username := some u.Username })))) ∧
    ('@' ∉ TrimSpace usernameForm →
      ((TrimSpace usernameForm).head? = some '+' ∨
        ∀ c ∈ TrimSpace usernameForm, isDigit c = true) →
      ((∀ v ∈ db.users, v.Phone ≠ TrimSpace usernameForm) →
        login env db sess usernameForm pw =
          (.html StatusUnauthorized "login.tmpl".toList (some "User not found".toList),
            sess)) ∧
      (∀ u, IsFirstRowWith db.users (fun v => v.Phone = TrimSpace usernameForm) u →
        (env.CheckPassword u.PasswordHash pw = false →
          login env db sess usernameForm pw =
            (.html StatusUnauthorized "login.tmpl".toList (some "Wrong password".toList),
              sess)) ∧
        (env.CheckPassword u.PasswordHash pw = true → sess.cart = none →
          login env db sess usernameForm pw =
            (.redirect StatusSeeOther "/".toList,
              { sess with user_email := some u.Email,
                          user_username := some u.Username })))) ∧
    ('@' ∉ TrimSpace usernameForm → (TrimSpace usernameForm).head? ≠ some '+' →
      ¬ (∀ c ∈ TrimSpace usernameForm, isDigit c = true) →
      ((∀ v ∈ db.users, v.Username ≠ TrimSpace usernameForm) →
        login env db sess usernameForm pw =
          (.html StatusUnauthorized "login.tmpl".toList (some "User not found".toList),
            sess)) ∧
      (∀ u, IsFirstRowWith db.users (fun v => v.Username = TrimSpace usernameForm) u →
        (env.CheckPassword u.PasswordHash pw = false →
          login env db sess usernameForm pw =
            (.html StatusUnauthorized "login.tmpl".toList (some "Wrong password".toList),
              sess)) ∧
        (env.CheckPassword u.PasswordHash pw = true → sess.cart = none →
          login env db sess usernameForm pw =
            (.redirect StatusSeeOther "/".toList,
              { sess with user_email := some u.Email,
                          user_username := some u.Username })))) ∧
    "User not found".toList ≠ "Wrong password".toList ∧ StatusUnauthorized = 401 := by
  have hb := loginFirst_by_branch db (TrimSpace usernameForm)
  refine ⟨?_, ?_, ?_, by decide, rfl⟩
  · intro h
    exact login_by_column env db sess usernameForm pw (fun v => v.Email) hid hpw (hb.1 h)
  · intro h hor
    exact login_by_column env db sess usernameForm pw (fun v => v.Phone) hid hpw
      (hb.2.1 h hor)
  · intro h hplus hnd
    exact login_by_column env db sess usernameForm pw (fun v => v.Username) hid hpw
      (hb.2.2 h hplus hnd)

/-- C11 (witness): against the four users, "ann@x.io" logs ann in by email,
"+111" logs ann in and " 222 " logs ben in by phone, "ben" logs ben in by
username; "12345", dee's username, is looked up as a phone and gets "User not
found", as does "nobody"; "cy" with a wrong password gets "Wrong password";
the failures leave the session without claims. -/
theorem C11_login_branches_and_failures_witness :
    login sampleEnv gateDB (guestSession none) "ann@x.io".toList "pw".toList =
      (.redirect 303 "/".toList, ⟨some "ann@x.io".toList, some "ann".toList, none⟩) ∧
    login sampleEnv gateDB (guestSession none) "+111".toList "pw".toList =
      (.redirect 303 "/".toList, ⟨some "ann@x.io".toList, some "ann".toList, none⟩) ∧
    login sampleEnv gateDB (guestSession none) " 222 ".toList "pw".toList =
      (.redirect 303 "/".toList, ⟨some "ben@x.io".toList, some "ben".toList, none⟩) ∧
    login sampleEnv gateDB (guestSession none) "ben".toList "pw".toList =
      (.redirect 303 "/".toList, ⟨some "ben@x.io".toList, some "ben".toList, none⟩) ∧
    login sampleEnv gateDB (guestSession none) "12345".toList "pw".toList =
      (.html 401 "login.tmpl".toList (some "User not found".toList), guestSession none) ∧
    login sampleEnv gateDB (guestSession none) "nobody".toList "pw".toList =
      (.html 401 "login.tmpl".toList (some "User not found".toList), guestSession none) ∧
    login sampleEnv gateDB (guestSession none) "cy".toList "guess".toList =
      (.html 401 "login.tmpl".toList (some "Wrong password".toList), guestSession none) := by
  have hmail := C11_login_branches_and_failures sampleEnv gateDB (guestSession none)
    "ann@x.io".toList "pw".toList (by decide) (by decide)
  have hplus := C11_login_branches_and_failures sampleEnv gateDB (guestSession none)
    "+111".toList "pw".toList (by decide) (by decide)
  have hnum := C11_login_branches_and_failures sampleEnv gateDB (guestSession none)
    " 222 ".toList "pw".toList (by decide) (by decide)
  have hben := C11_login_branches_and_failures sampleEnv gateDB (guestSession none)
    "ben".toList "pw".toList (by decide) (by decide)
  have hdigits := C11_login_branches_and_failures sampleEnv gateDB (guestSession none)
    "12345".toList "pw".toList (by decide) (by decide)
  have hnobody := C11_login_branches_and_failures sampleEnv gateDB (guestSession none)
    "nobody".toList "pw".toList (by decide) (by decide)
  have hcy := C11_login_branches_and_failures sampleEnv gateDB (guestSession none)
    "cy".toList "guess".toList (by decide) (by decide)
  refine ⟨?_, ?_, ?_, ?_, ?_, ?_, ?_⟩
  · exact ((hmail.1 (by decide)).2
      ⟨1, "ann@x.io".toList, "+111".toList, "ann".toList, "#pw".toList, "SELLER".toList⟩
      ⟨[], _, rfl, by decide, by decide⟩).2 (by decide) rfl
  · exact ((hplus.2.1 (by decide) (Or.inl (by decide))).2
      ⟨1, "ann@x.io".toList, "+111".toList, "ann".toList, "#pw".toList, "SELLER".toList⟩
      ⟨[], _, rfl, by decide, by decide⟩).2 (by decide) rfl
  · exact ((hnum.2.1 (by decide) (Or.inr (by decide))).2
      ⟨2, "ben@x.io".toList, "222".toList, "ben".toList, "#pw".toList, "Admin".toList⟩
      ⟨[⟨1, "ann@x.io".toList, "+111".toList, "ann".toList, "#pw".toList, "SELLER".toList⟩],
        _, rfl, by decide, by decide⟩).2 (by decide) rfl
  · exact ((hben.2.2.1 (by decide) (by decide) (by decide)).2
      ⟨2, "ben@x.io".toList, "222".toList, "ben".toList, "#pw".toList, "Admin".toList⟩
      ⟨[⟨1, "ann@x.io".toList, "+111".toList, "ann".toList, "#pw".toList, "SELLER".toList⟩],
        _, rfl, by decide, by decide⟩).2 (by decide) rfl
  · exact (hdigits.2.1 (by decide) (Or.inr (by decide))).1 (by decide)
  · exact (hnobody.2.2.1 (by decide) (by decide) (by decide)).1 (by decide)
  · exact ((hcy.2.2.1 (by decide) (by decide) (by decide)).2
      ⟨3, "cy@x.io".toList, "+333".toList, "cy".toList, "#pw".toList, "buyer".toList⟩
      ⟨[⟨1, "ann@x.io".toList, "+111".toList, "ann".toList, "#pw".toList, "SELLER".toList⟩,
        ⟨2, "ben@x.io".toList, "222".toList, "ben".toList, "#pw".toList, "Admin".toList⟩],
        _, rfl, by decide, by decide⟩).1 (by decide)

/-! ## C12: every stored cart quantity is at least 1 -/

theorem Cart.mem_delete {m : Cart} {k : GoString} {e : GoString × Int}
    (h : e ∈ Cart.delete m k) : e ∈ m ∧ e.1 ≠ k := by
  unfold Cart.delete at h
  rw [List.mem_filter] at h
  exact ⟨h.1, by simpa using h.2⟩

theorem Cart.mem_set {m : Cart} {k : GoString} {v : Int} {e : GoString × Int}
    (h : e ∈ Cart.set m k v) : e = (k, v) ∨ (e ∈ m ∧ e.1 ≠ k) := by
  unfold Cart.set at h
  rw [List.mem_cons] at h
  rcases h with h | h
  · exact Or.inl h
  · exact Or.inr (Cart.mem_delete h)

theorem Cart.lookup_mem {m : Cart} {k : GoString} {q : Int} (h : m.lookup k = some q) :
    (k, q) ∈ m := by
  induction m with
  | nil => cases h
  | cons e es ih =>
    obtain ⟨a, b⟩ := e
    simp only [List.lookup] at h
    cases hk : (k == a) with
    | true =>
      rw [hk] at h
      simp only [Option.some.injEq] at h
      have : k = a := by simpa using hk
      rw [this, h]
      exact List.mem_cons_self _ _
    | false =>
      rw [hk] at h
      exact List.mem_cons_of_mem _ (ih h)

/-- The map writes of `POST /cart/add` keep every quantity at least 1. -/
theorem cartAddWrites_keeps_quantities (m : Cart) (k : GoString) (w : Int)
    (h : ∀ e ∈ m, 1 ≤ e.2) : ∀ e ∈ cartAddWrites m k w, 1 ≤ e.2 := by
  unfold cartAddWrites
  simp only [Cart.get_set_self]
  by_cases hw : wrap64 (Cart.get m k + w) < 1
  · rw [if_pos hw]
    intro e he
    rcases Cart.mem_set he with rfl | ⟨hm, hne⟩
    · exact le_refl _
    · rcases Cart.mem_set hm with rfl | ⟨hm', _⟩
      · exact absurd rfl hne
      · exact h e hm'
  · rw [if_neg hw]
    intro e he
    rcases Cart.mem_set he with rfl | ⟨hm, _⟩
    · exact not_lt.1 hw
    · exact h e hm

/-- The map writes of `POST /cart/update` and the delete of `POST /cart/remove`
keep every quantity at least 1. -/
theorem cartUpdateWrites_keeps_quantities (m : Cart) (k : GoString) (q : Int)
    (h : ∀ e ∈ m, 1 ≤ e.2) :
    (∀ e ∈ cartUpdateWrites m k q, 1 ≤ e.2) ∧ ∀ e ∈ Cart.delete m k, 1 ≤ e.2 := by
  have hdel : ∀ e ∈ Cart.delete m k, 1 ≤ e.2 := fun e he => h e (Cart.mem_delete he).1
  refine ⟨?_, hdel⟩
  unfold cartUpdateWrites
  by_cases hq : q ≤ 0
  · rw [if_pos hq]; exact hdel
  · rw [if_neg hq]
    intro e he
    rcases Cart.mem_set he with rfl | ⟨hm, _⟩
    · simp only
      omega
    · exact h e hm

/-- Every sequence of cart requests keeps every stored quantity at least 1. -/
theorem runCartOps_keeps_quantities (env : Env) (reqs : List (DB × CartOp)) (sess : Session)
    (h : ∀ e ∈ getCart sess, 1 ≤ e.2) :
    ∀ e ∈ getCart (runCartOps env sess reqs), 1 ≤ e.2 := by
  rw [runCartOps_session]
  exact h

/-- C12: starting from a session whose cart is empty, after any finite
sequence of add, update and remove requests, with any form values for product
id and quantity and any state of the database at each request, the stored
session is the one the sequence started from, its cart is still empty, and so
every entry of the stored cart has quantity at least 1; and an add that is
rejected (empty id: "no product", product not found, stock at most 0: "out of
stock") answers without a redirect and leaves the session, cart included, as
it was. The maps the three handlers build and hand to `saveCart` also keep
every quantity at least 1. -/
theorem C12_stored_quantities_at_least_one (env : Env) (sess : Session)
    (reqs : List (DB × CartOp)) (hempty : getCart sess = []) :
    runCartOps env sess reqs = sess ∧
    getCart (runCartOps env sess reqs) = [] ∧
    (∀ e ∈ getCart (runCartOps env sess reqs), 1 ≤ e.2) ∧
    (∀ (k : GoString) (q : Int),
      (getCart (runCartOps env sess reqs)).lookup k = some q → 1 ≤ q) ∧
    (∀ (db : DB) (s : Session) (pid qty : GoString), TrimSpace pid = [] →
      cartAdd env db s pid qty = (.text StatusBadRequest "no product".toList, s)) ∧
    (∀ (db : DB) (s : Session) (pid qty : GoString), TrimSpace pid ≠ [] →
      firstProduct env db (TrimSpace pid) = none →
      cartAdd env db s pid qty = (.text StatusNotFound "product not found".toList, s)) ∧
    (∀ (db : DB) (s : Session) (pid qty : GoString) (p : Product), TrimSpace pid ≠ [] →
      firstProduct env db (TrimSpace pid) = some p → p.Stock ≤ 0 →
      cartAdd env db s pid qty = (.text StatusBadRequest "out of stock".toList, s)) ∧
    (∀ (m : Cart) (k : GoString) (w : Int), (∀ e ∈ m, 1 ≤ e.2) →
      (∀ e ∈ cartAddWrites m k w, 1 ≤ e.2) ∧ (∀ e ∈ cartUpdateWrites m k w, 1 ≤ e.2) ∧
      (∀ e ∈ Cart.delete m k, 1 ≤ e.2)) := by
  have hinv : ∀ e ∈ getCart (runCartOps env sess reqs), 1 ≤ e.2 :=
    runCartOps_keeps_quantities env reqs sess (by rw [hempty]; intro e he; cases he)
  refine ⟨runCartOps_session env reqs sess, by rw [runCartOps_session, hempty], hinv,
    fun k q hk => hinv (k, q) (Cart.lookup_mem hk), ?_, ?_, ?_,
    fun m k w hm => ⟨cartAddWrites_keeps_quantities m k w hm,
      (cartUpdateWrites_keeps_quantities m k w hm).1,
      (cartUpdateWrites_keeps_quantities m k w hm).2⟩⟩
  · intro db s pid qty hid
    simp only [cartAdd, hid, if_true]
  · intro db s pid qty hid hp
    simp only [cartAdd, hid, if_false, hp]
  · intro db s pid qty p hid hp hs
    simp only [cartAdd, hid, if_false, hp, hs, if_true]

/-- C12 (witness): from the empty cart, add("7", 9223372036854775807),
add("7", 5), update("8", abc), update("9", 3), add("7", -4), add("8", 2),
update("9", 0), remove("5") and add("7", 99999999999999999999) leave the
stored cart empty, so it holds no quantity below 1; the rejected adds leave
the session as it was. -/
theorem C12_stored_quantities_at_least_one_witness :
    getCart (runCartOps sampleEnv (guestSession none)
      [ (sampleDB, .add "7".toList "9223372036854775807".toList),
        (sampleDB, .add "7".toList "5".toList),
        (sampleDB, .update "8".toList "abc".toList),
        (sampleDB, .update "9".toList "3".toList),
        (sampleDB, .add "7".toList "-4".toList),
        (sampleDB, .add "8".toList "2".toList),
        (sampleDB, .update "9".toList "0".toList),
        (sampleDB, .remove "5".toList),
        (sampleDB, .add "7".toList "99999999999999999999".toList) ]) = [] ∧
    (∀ e ∈ getCart (runCartOps sampleEnv (guestSession none)
      [ (sampleDB, .add "7".toList "9223372036854775807".toList),
        (sampleDB, .add "7".toList "5".toList),
        (sampleDB, .update "9".toList "3".toList) ]), 1 ≤ e.2) ∧
    cartAdd sampleEnv sampleDB (guestSession none) "  ".toList "2".toList =
      (.text 400 "no product".toList, guestSession none) ∧
    cartAdd sampleEnv sampleDB (guestSession none) "9".toList "2".toList =
      (.text 404 "product not found".toList, guestSession none) ∧
    cartAdd sampleEnv sampleDB (guestSession none) "8".toList "2".toList =
      (.text 400 "out of stock".toList, guestSession none) := by
  have h := C12_stored_quantities_at_least_one sampleEnv (guestSession none)
    [ (sampleDB, .add "7".toList "9223372036854775807".toList),
      (sampleDB, .add "7".toList "5".toList),
      (sampleDB, .update "9".toList "3".toList) ] rfl
  exact ⟨by decide, h.2.2.1,
    h.2.2.2.2.1 sampleDB (guestSession none) "  ".toList "2".toList (by decide),
    h.2.2.2.2.2.1 sampleDB (guestSession none) "9".toList "2".toList (by decide) (by decide),
    h.2.2.2.2.2.2.1 sampleDB (guestSession none) "8".toList "2".toList
      ⟨8, 0, 0, 3, "desk".toList, [], 9900, 0, []⟩ (by decide) (by decide) (by decide)⟩

end Marketplace
